import Mathlib

/-!
Verification of the session/exchange logger of `src/lib/session-logger.ts`.

The logger is a closure-based stateful component consuming a stream of
SDK messages and persisting JSONL records (one JSON object per line) to a
per-session file.  We shallow-embed it as a pure state machine:

* JavaScript objects parsed from / serialized to JSONL lines are modelled by
  the flat structure `Record` whose fields are all optional, mirroring the
  duck-typed access the TypeScript code performs (`parsed.type`,
  `parsed.exchange`, ...).  A raw line of the file either parses as such a
  record or is malformed, giving the sum type `Line`.
* The sessions directory is an association list from filename to file
  contents (`List Line`).  All files live in the single `sessionsDir`, and
  `path.join(sessionsDir, name)` is injective in `name`, so paths are
  identified with filenames.
* Wall-clock reads (`new Date().toISOString()`) are modelled by threading an
  explicit timestamp string `now` into each operation.
* JavaScript numbers are modelled exactly: integer-valued fields
  (durations, token counts, ordinals) as `Nat`, the monetary cost as `Rat`.
* JavaScript truthiness tests on strings (`block.text`, `block.id`, ...)
  are false exactly on a missing field or the empty string; on numbers they
  are false on a missing field or `0`.
-/

namespace SessionLogger

/-- Truthiness of an optional string field: present and non-empty. -/
def truthyStr (o : Option String) : Bool :=
  match o with
  | some s => s ≠ ""
  | none => false

/-- The JavaScript idiom `x || d` on an optional string field. -/
def orElseStr (o : Option String) (d : String) : String :=
  match o with
  | some s => if s = "" then d else s
  | none => d

/-- Token usage snapshot, as stored in `lastExchangeTokens` and in the
`total_tokens` field of the `session_end` record. -/
structure TokenSnapshot where
  input : Nat
  output : Nat
  cache_creation : Nat
  cache_read : Nat
deriving DecidableEq, Repr

/-- The all-zero token snapshot, the logger's initial value. -/
def zeroTokens : TokenSnapshot := ⟨0, 0, 0, 0⟩

/-- Statistics of a single exchange, extracted from a `result` message
(interface `ExchangeStats` of the source). `duration_api_ms` is kept
optional because the source copies `message.duration_api_ms` without a
default. -/
structure ExchangeStats where
  num_turns : Nat
  duration_ms : Nat
  duration_api_ms : Option Nat
  tokens_in : Nat
  tokens_out : Nat
  cache_creation : Nat
  cache_read : Nat
  cost_usd : Rat
deriving DecidableEq, Repr

/-- A message buffered in the exchange (interface `Message` of the source).
The opaque tool-input payload (`Record<string, unknown>`, never inspected by
the logger) is modelled as an association list of keys to serialized
values. -/
structure Msg where
  source : String
  type : String
  ts : String
  text : Option String := none
  tool_use_id : Option String := none
  name : Option String := none
  input : Option (List (String × String)) := none
  is_error : Option Bool := none
  output : Option String := none
deriving DecidableEq, Repr

/-- A parsed JSON object on a line of the log file.  All fields are optional,
mirroring duck-typed property access on the parsed value; `type` defaults to
the empty string (reading a missing property yields a falsy value). -/
structure Record where
  type : String := ""
  session_id : Option String := none
  ts : Option String := none
  model : Option String := none
  cwd : Option String := none
  tools_available : Option (List String) := none
  permission_mode : Option String := none
  exchange : Option Nat := none
  ts_start : Option String := none
  ts_end : Option String := none
  user_input : Option String := none
  messages : Option (List Msg) := none
  stats : Option ExchangeStats := none
  total_exchanges : Option Nat := none
  total_duration_ms : Option Nat := none
  total_duration_api_ms : Option Nat := none
  total_cost_usd : Option Rat := none
  total_tokens : Option TokenSnapshot := none
  tools_used : Option (List (String × Nat)) := none
deriving DecidableEq, Repr

/-- One line of a JSONL session file: either it parses as a JSON record or
`JSON.parse` throws on it. -/
inductive Line where
  | malformed
  | ok (r : Record)
deriving DecidableEq, Repr

/-- The sessions directory: filenames with their contents, in directory
listing order. -/
abbrev Dir := List (String × List Line)

/-- Contents of a file of the directory (empty if absent). -/
def readFile (dir : Dir) (name : String) : List Line :=
  ((dir.find? (fun f => f.1 = name)).map (fun f => f.2)).getD []

/-- Whether a file exists in the directory (`fs.existsSync`). -/
def fileExists (dir : Dir) (name : String) : Bool :=
  dir.any (fun f => f.1 = name)

/-- Append one line to a file, creating it if absent
(`fs.appendFileSync`). -/
def dirAppend (dir : Dir) (name : String) (l : Line) : Dir :=
  if fileExists dir name then
    dir.map (fun f => if f.1 = name then (f.1, f.2 ++ [l]) else f)
  else
    dir ++ [(name, [l])]

/-- Overwrite an existing file's contents (`fs.writeFileSync`; the source
only rewrites files it has checked exist). -/
def dirWrite (dir : Dir) (name : String) (lines : List Line) : Dir :=
  dir.map (fun f => if f.1 = name then (f.1, lines) else f)

/-- The fields of a tool-result block's `content`, which the runtime sends
either as a string or as structured data; the source serializes the latter
with `JSON.stringify`, modelled by carrying the serialization. -/
inductive BlockContent where
  | str (s : String)
  | obj (serialized : String)
deriving DecidableEq, Repr

/-- A content block of an `assistant` or `user` message, duck-typed like
`Record`. -/
structure ContentBlock where
  type : String := ""
  text : Option String := none
  id : Option String := none
  name : Option String := none
  input : Option (List (String × String)) := none
  tool_use_id : Option String := none
  is_error : Option Bool := none
  content : Option BlockContent := none
deriving DecidableEq, Repr

/-- The `message` sub-object of an assistant/user SDK message. -/
structure MsgBody where
  content : Option (List ContentBlock) := none
deriving DecidableEq, Repr

/-- The `usage` sub-object of a result SDK message. -/
structure Usage where
  input_tokens : Option Nat := none
  output_tokens : Option Nat := none
  cache_creation_input_tokens : Option Nat := none
  cache_read_input_tokens : Option Nat := none
deriving DecidableEq, Repr

/-- An SDK message (`SDKMessage` is `any` in the source; this structure
lists exactly the properties the logger reads, all optional). -/
structure SDKMessage where
  type : String := ""
  subtype : Option String := none
  session_id : Option String := none
  model : Option String := none
  cwd : Option String := none
  tools : Option (List String) := none
  permissionMode : Option String := none
  message : Option MsgBody := none
  num_turns : Option Nat := none
  duration_ms : Option Nat := none
  duration_api_ms : Option Nat := none
  usage : Option Usage := none
  total_cost_usd : Option Rat := none
deriving DecidableEq, Repr

/-- The closure state of `createSessionLogger`.  `filePath` holds the active
file's name, the empty string meaning "no active file" (the source
initializes `filePath = ""` and guards on `!filePath`). -/
structure LoggerState where
  sessionId : String
  filePath : String
  exchangeCount : Nat
  currentMessages : List Msg
  currentUserInput : String
  exchangeStartTs : String
  totalDurationMs : Nat
  totalDurationApiMs : Nat
  totalCostUsd : Rat
  lastExchangeTokens : TokenSnapshot
  toolsUsed : List (String × Nat)
  sessionModel : String
  sessionCwd : String
  sessionTools : List String
  sessionPermissionMode : String
deriving DecidableEq, Repr

/-- Combined state: the logger's closure variables plus the sessions
directory on disk. -/
structure St where
  logger : LoggerState
  dir : Dir
deriving DecidableEq, Repr

/-- The state of a freshly created logger over a given directory. -/
def initialSt (dir : Dir) : St :=
  { logger :=
    { sessionId := ""
      filePath := ""
      exchangeCount := 0
      currentMessages := []
      currentUserInput := ""
      exchangeStartTs := ""
      totalDurationMs := 0
      totalDurationApiMs := 0
      totalCostUsd := 0
      lastExchangeTokens := zeroTokens
      toolsUsed := []
      sessionModel := ""
      sessionCwd := ""
      sessionTools := []
      sessionPermissionMode := "default" }
    dir := dir }

/-- Replace the first `T` of an ISO timestamp with `_`
(JavaScript `.replace("T", "_")` replaces the first occurrence only). -/
def replaceFirstT : List Char → List Char
  | [] => []
  | c :: cs => if c = 'T' then '_' :: cs else c :: replaceFirstT cs

/-- The filename timestamp computed in `handleSystemMessage`:
`new Date().toISOString().replace(/[-:]/g, "").replace("T", "_").substring(0, 15)`. -/
def fnameTimestamp (iso : String) : String :=
  (String.mk (replaceFirstT (iso.toList.filter (fun c => !(c = '-' ∨ c = ':'))))).take 15

/-- JavaScript `String.prototype.endsWith`: whether `suffix` is a suffix of
`s` (stated on the character lists so that it evaluates by reduction). -/
def strEndsWith (s suffix : String) : Bool :=
  suffix.data.isSuffixOf s.data

/-- The source's `findExistingSessionFile`: the first file of the directory
listing whose name ends with an underscore, the first 8 characters of the
session id, and the `.jsonl` suffix. -/
def findExistingSessionFile (dir : Dir) (sessionId : String) : Option String :=
  (dir.find? (fun f => strEndsWith f.1 ("_" ++ sessionId.take 8 ++ ".jsonl"))).map (fun f => f.1)

/-- Loop body of `getLastExchangeNumber`: scan the lines in order keeping the
running maximum; `none` models the `JSON.parse` exception escaping the loop
at the first malformed line. -/
def getLastExchangeNumberGo : List Line → Nat → Option Nat
  | [], acc => some acc
  | Line.malformed :: _, _ => none
  | Line.ok r :: rest, acc =>
      getLastExchangeNumberGo rest
        (if r.type = "exchange" ∧ r.exchange.getD 0 ≠ 0
          then max acc (r.exchange.getD 0) else acc)

/-- The source's `getLastExchangeNumber`: highest `exchange` ordinal among
the parsed lines, or `0` when the surrounding `try` catches a parse
failure. -/
def getLastExchangeNumber (lines : List Line) : Nat :=
  (getLastExchangeNumberGo lines 0).getD 0

/-- Backward scan of `loadPreviousSessionStats` over the reversed line list:
stops at the first line that is a `session_end` record (returning it) or
that fails to parse (the exception is caught with no state mutated). -/
def findLastSessionEndGo : List Line → Option Record
  | [] => none
  | Line.malformed :: _ => none
  | Line.ok r :: rest =>
      if r.type = "session_end" then some r else findLastSessionEndGo rest

/-- The `session_end` record `loadPreviousSessionStats` finds scanning from
the last line upward, if any. -/
def findLastSessionEnd (lines : List Line) : Option Record :=
  findLastSessionEndGo lines.reverse

/-- `Object.assign` of one key/value pair onto an ordered string-keyed
object: overwrite in place if the key exists, else append. -/
def assignOne : List (String × Nat) → String × Nat → List (String × Nat)
  | [], kv => [kv]
  | (k, v) :: rest, kv =>
      if k = kv.1 then (k, kv.2) :: rest else (k, v) :: assignOne rest kv

/-- `Object.assign(toolsUsed, parsed.tools_used)`. -/
def objectAssign (target src : List (String × Nat)) : List (String × Nat) :=
  src.foldl assignOne target

/-- The source's `loadPreviousSessionStats`, applied to the logger state:
load accumulated totals from the last `session_end` record of the file, or
leave the state untouched when none is found (or a parse error is
caught first). -/
def loadPreviousSessionStats (s : LoggerState) (lines : List Line) : LoggerState :=
  match findLastSessionEnd lines with
  | none => s
  | some r =>
      { s with
        totalDurationMs := r.total_duration_ms.getD 0
        totalDurationApiMs := r.total_duration_api_ms.getD 0
        totalCostUsd := r.total_cost_usd.getD 0
        lastExchangeTokens := r.total_tokens.getD zeroTokens
        toolsUsed :=
          match r.tools_used with
          | some tu => objectAssign s.toolsUsed tu
          | none => s.toolsUsed }

/-- The source's `appendLine`: append one record to the active file; a
silent no-op when no file is active. -/
def appendLine (st : St) (r : Record) : St :=
  if st.logger.filePath = "" then st
  else { st with dir := dirAppend st.dir st.logger.filePath (Line.ok r) }

/-- The source's `removeLastSessionEnd`: if the active file exists and its
last line parses as a `session_end` record, rewrite the file without that
line; otherwise (including on a parse error of the last line) leave the file
untouched. -/
def removeLastSessionEnd (st : St) : St :=
  if st.logger.filePath = "" then st
  else if fileExists st.dir st.logger.filePath then
    let lines := readFile st.dir st.logger.filePath
    match lines.getLast? with
    | none => st
    | some Line.malformed => st
    | some (Line.ok r) =>
        if r.type = "session_end" then
          { st with dir := dirWrite st.dir st.logger.filePath lines.dropLast }
        else st
  else st

/-- The `session_start` record written for a brand-new session file. -/
def sessionStartRecord (s : LoggerState) (now : String) : Record :=
  { type := "session_start"
    session_id := some s.sessionId
    ts := some now
    model := some s.sessionModel
    cwd := some s.sessionCwd
    tools_available := some s.sessionTools
    permission_mode := some s.sessionPermissionMode }

/-- The source's `handleSystemMessage`: record session metadata, then either
adopt an existing file for this session id (resuming the exchange counter
and accumulated stats and trimming the trailing `session_end`) or create a
new file and write a `session_start` record. -/
def handleSystemMessage (m : SDKMessage) (now : String) (st : St) : St :=
  let s :=
    { st.logger with
      sessionId := orElseStr m.session_id ""
      sessionModel := orElseStr m.model ""
      sessionCwd := orElseStr m.cwd ""
      sessionTools := m.tools.getD []
      sessionPermissionMode := orElseStr m.permissionMode "default" }
  match findExistingSessionFile st.dir s.sessionId with
  | some existingFile =>
      let lines := readFile st.dir existingFile
      let s := { s with
        filePath := existingFile
        exchangeCount := getLastExchangeNumber lines }
      let s := loadPreviousSessionStats s lines
      removeLastSessionEnd { logger := s, dir := st.dir }
  | none =>
      let filename := fnameTimestamp now ++ "_" ++ s.sessionId.take 8 ++ ".jsonl"
      let s := { s with filePath := filename }
      appendLine { logger := s, dir := st.dir } (sessionStartRecord s now)

/-- Per-block body of the loop in `handleAssistantMessage`, threading the
message buffer and the tool-usage map.  A `text` block is buffered when its
text is present and non-empty; a `tool_use` block is buffered (and the
tool's usage count bumped) when both its id and name are present and
non-empty; every other block is skipped. -/
def assistantBlockStep (ts : String) (acc : List Msg × List (String × Nat))
    (b : ContentBlock) : List Msg × List (String × Nat) :=
  if b.type = "text" ∧ truthyStr b.text then
    (acc.1 ++ [{ source := "assistant", type := "text", text := b.text, ts := ts }], acc.2)
  else if b.type = "tool_use" ∧ truthyStr b.id ∧ truthyStr b.name then
    (acc.1 ++ [{ source := "assistant", type := "tool_use", tool_use_id := b.id,
                 name := b.name, input := b.input, ts := ts }],
     bumpTool acc.2 (b.name.getD ""))
  else acc
where
  /-- `if (!toolsUsed[name]) toolsUsed[name] = 0; toolsUsed[name]++`. -/
  bumpTool : List (String × Nat) → String → List (String × Nat)
  | [], n => [(n, 1)]
  | (k, v) :: rest, n =>
      if k = n then (k, v + 1) :: rest else (k, v) :: bumpTool rest n

/-- The source's `handleAssistantMessage`: early return when
`message.message?.content` is absent, otherwise fold the per-block step over
the content array. -/
def handleAssistantMessage (m : SDKMessage) (now : String) (st : St) : St :=
  match m.message.bind (fun body => body.content) with
  | none => st
  | some blocks =>
      let r := blocks.foldl (assistantBlockStep now)
        (st.logger.currentMessages, st.logger.toolsUsed)
      { st with logger := { st.logger with currentMessages := r.1, toolsUsed := r.2 } }

/-- The `output` field of a buffered tool-result message:
`typeof block.content === "string" ? block.content : JSON.stringify(block.content)`
(`JSON.stringify(undefined)` is `undefined`). -/
def outputOf : Option BlockContent → Option String
  | some (BlockContent.str s) => some s
  | some (BlockContent.obj j) => some j
  | none => none

/-- Per-block body of the loop in `handleUserMessage`: buffer a tool-result
message for each `tool_result` block whose `tool_use_id` is present and
non-empty. -/
def userBlockStep (ts : String) (acc : List Msg) (b : ContentBlock) : List Msg :=
  if b.type = "tool_result" ∧ truthyStr b.tool_use_id then
    acc ++ [{ source := "tool", type := "result", tool_use_id := b.tool_use_id,
              is_error := some (b.is_error.getD false),
              output := outputOf b.content, ts := ts }]
  else acc

/-- The source's `handleUserMessage`. -/
def handleUserMessage (m : SDKMessage) (now : String) (st : St) : St :=
  match m.message.bind (fun body => body.content) with
  | none => st
  | some blocks =>
      { st with logger := { st.logger with
          currentMessages := blocks.foldl (userBlockStep now) st.logger.currentMessages } }

/-- Extraction of `ExchangeStats` from a `result` message, with the
source's `|| 0` defaults. -/
def extractStats (m : SDKMessage) : ExchangeStats :=
  { num_turns := m.num_turns.getD 0
    duration_ms := m.duration_ms.getD 0
    duration_api_ms := m.duration_api_ms
    tokens_in := (m.usage.bind (fun u => u.input_tokens)).getD 0
    tokens_out := (m.usage.bind (fun u => u.output_tokens)).getD 0
    cache_creation := (m.usage.bind (fun u => u.cache_creation_input_tokens)).getD 0
    cache_read := (m.usage.bind (fun u => u.cache_read_input_tokens)).getD 0
    cost_usd := m.total_cost_usd.getD 0 }

/-- The `exchange` record built by `handleResultMessage`. -/
def exchangeRecord (s : LoggerState) (stats : ExchangeStats) (tsEnd : String) : Record :=
  { type := "exchange"
    session_id := some s.sessionId
    exchange := some s.exchangeCount
    ts_start := some s.exchangeStartTs
    ts_end := some tsEnd
    user_input := some s.currentUserInput
    messages := some s.currentMessages
    stats := some stats }

/-- The source's `handleResultMessage`: append the exchange record, fold its
stats into the session totals (sum durations and cost, replace the token
snapshot), and reset the exchange buffer. -/
def handleResultMessage (m : SDKMessage) (now : String) (st : St) : St :=
  let stats := extractStats m
  let st := appendLine st (exchangeRecord st.logger stats now)
  { st with logger := { st.logger with
      totalDurationMs := st.logger.totalDurationMs + stats.duration_ms
      totalDurationApiMs := st.logger.totalDurationApiMs + stats.duration_api_ms.getD 0
      totalCostUsd := st.logger.totalCostUsd + stats.cost_usd
      lastExchangeTokens :=
        { input := stats.tokens_in
          output := stats.tokens_out
          cache_creation := stats.cache_creation
          cache_read := stats.cache_read }
      currentMessages := []
      currentUserInput := ""
      exchangeStartTs := "" } }

/-- The source's public `log`: dispatch on the message's `type` tag
(falsy or unknown tags are ignored; `system` messages are handled only with
`subtype === "init"`). -/
def log (m : SDKMessage) (now : String) (st : St) : St :=
  if m.type = "" then st
  else if m.type = "system" then
    if m.subtype = some "init" then handleSystemMessage m now st else st
  else if m.type = "assistant" then handleAssistantMessage m now st
  else if m.type = "user" then handleUserMessage m now st
  else if m.type = "result" then handleResultMessage m now st
  else st

/-- The source's public `logUserInput`: begin a new exchange. -/
def logUserInput (userText : String) (now : String) (st : St) : St :=
  { st with logger := { st.logger with
      exchangeCount := st.logger.exchangeCount + 1
      exchangeStartTs := now
      currentUserInput := userText } }

/-- The `session_end` record written by `close`. -/
def sessionEndRecord (s : LoggerState) (now : String) : Record :=
  { type := "session_end"
    session_id := some s.sessionId
    ts := some now
    total_exchanges := some s.exchangeCount
    total_duration_ms := some s.totalDurationMs
    total_duration_api_ms := some s.totalDurationApiMs
    total_cost_usd := some s.totalCostUsd
    total_tokens := some s.lastExchangeTokens
    tools_used := some s.toolsUsed }

/-- The source's public `close`: append a `session_end` record with the
latest stats (no-op when no file is active). -/
def close (now : String) (st : St) : St :=
  if st.logger.filePath = "" then st
  else appendLine st (sessionEndRecord st.logger now)

/-- One call into the logger's public API, carrying the wall-clock
timestamp the call observes. -/
inductive Event where
  | log (m : SDKMessage) (now : String)
  | logUserInput (text : String) (now : String)
  | close (now : String)
deriving DecidableEq, Repr

/-- Apply one API call to the state. -/
def step (st : St) : Event → St
  | Event.log m now => log m now st
  | Event.logUserInput text now => logUserInput text now st
  | Event.close now => close now st

/-- Run a sequence of API calls. -/
def runEvents (evs : List Event) (st : St) : St :=
  evs.foldl step st

/-! ### Specification-side definitions

The following definitions formalize phrases of the natural-language
specification directly; the theorems below compare the code-derived
functions against them. -/

/-- Spec-side: the `exchange` ordinals recorded in a file, in order (the
ordinal fields of the lines that parse as `exchange` records). -/
def exchangeOrdinals (lines : List Line) : List Nat :=
  lines.filterMap (fun l =>
    match l with
    | Line.ok r => if r.type = "exchange" then r.exchange else none
    | Line.malformed => none)

/-- Spec-side: the highest exchange ordinal recorded in a file. -/
def maxExchangeOrdinal (lines : List Line) : Nat :=
  (exchangeOrdinals lines).foldl max 0

/-- Spec-side: a file with its trailing `session_end` line removed (left
unchanged when its last line is not a parseable `session_end` record). -/
def stripTrailingSessionEnd (lines : List Line) : List Line :=
  match lines.getLast? with
  | some (Line.ok r) => if r.type = "session_end" then lines.dropLast else lines
  | _ => lines

/-- Spec-side: the token usage of the exchange completed by a given result
message. -/
def resultTokenSnapshot (m : SDKMessage) : TokenSnapshot :=
  { input := (extractStats m).tokens_in
    output := (extractStats m).tokens_out
    cache_creation := (extractStats m).cache_creation
    cache_read := (extractStats m).cache_read }

/-- Whether a line parses as a record of the given `type` tag. -/
def isTypeLine (t : String) : Line → Bool
  | Line.ok r => r.type = t
  | Line.malformed => false

/-- Number of lines of a file that parse as records of the given type. -/
def countLinesOfType (t : String) (lines : List Line) : Nat :=
  lines.countP (isTypeLine t)

/-- Number of records of a given type across every file of the directory. -/
def countDirOfType (t : String) (dir : Dir) : Nat :=
  (dir.map (fun f => countLinesOfType t f.2)).sum

/-- Number of `exchange` records across every file of the directory. -/
def countExchangeDir (dir : Dir) : Nat :=
  countDirOfType "exchange" dir

/-- Whether an API call is an init-class event (a `system` message with
subtype `init`, the only kind `log` routes to `handleSystemMessage`). -/
def isInitEvent : Event → Bool
  | Event.log m _ => m.type = "system" && m.subtype = some "init"
  | _ => false

/-- Whether an API call is a completion-class (`result`) event. -/
def isResultEvent : Event → Bool
  | Event.log m _ => m.type = "result"
  | _ => false

/-- Whether an API call is a `close()` call. -/
def isCloseEvent : Event → Bool
  | Event.close _ => true
  | _ => false

/-- Number of completion-class events of a call sequence. -/
def countResultEvents (evs : List Event) : Nat :=
  evs.countP isResultEvent

/-- The `duration_ms` stat of the exchange an event completes (`0` for
events that complete no exchange). -/
def eventDurationMs : Event → Nat
  | Event.log m _ => if m.type = "result" then (extractStats m).duration_ms else 0
  | _ => 0

/-- The `duration_api_ms` stat (with the source's `|| 0` default) of the
exchange an event completes. -/
def eventDurationApiMs : Event → Nat
  | Event.log m _ =>
      if m.type = "result" then (extractStats m).duration_api_ms.getD 0 else 0
  | _ => 0

/-- The `cost_usd` stat of the exchange an event completes. -/
def eventCostUsd : Event → Rat
  | Event.log m _ => if m.type = "result" then (extractStats m).cost_usd else 0
  | _ => 0

/-- Spec-side: sum of the per-exchange `duration_ms` stats over the
completed exchanges of a call sequence. -/
def sumResultDurationMs (evs : List Event) : Nat :=
  (evs.map eventDurationMs).sum

/-- Spec-side: sum of the per-exchange `duration_api_ms` stats over the
completed exchanges of a call sequence. -/
def sumResultDurationApiMs (evs : List Event) : Nat :=
  (evs.map eventDurationApiMs).sum

/-- Spec-side: sum of the per-exchange `cost_usd` stats over the completed
exchanges of a call sequence. -/
def sumResultCostUsd (evs : List Event) : Rat :=
  (evs.map eventCostUsd).sum

/-- Well-formedness of the directory: filenames are distinct and
non-empty.  This holds for every directory reachable from an empty one. -/
def GoodDir (dir : Dir) : Prop :=
  (dir.map Prod.fst).Nodup ∧ ∀ f ∈ dir, f.1 ≠ ""

/-- Well-formedness of a running state: good directory and an active
file. -/
def GoodSt (st : St) : Prop :=
  GoodDir st.dir ∧ st.logger.filePath ≠ ""

/-- The filename `handleSystemMessage` derives for a brand-new session
file. -/
def newSessionFilename (m : SDKMessage) (now : String) : String :=
  fnameTimestamp now ++ "_" ++ (orElseStr m.session_id "").take 8 ++ ".jsonl"

/-- The session-metadata assignment performed at the start of
`handleSystemMessage` (an abbreviation used by lemma statements). -/
def initializedLogger (m : SDKMessage) (s : LoggerState) : LoggerState :=
  { s with
    sessionId := orElseStr m.session_id ""
    sessionModel := orElseStr m.model ""
    sessionCwd := orElseStr m.cwd ""
    sessionTools := m.tools.getD []
    sessionPermissionMode := orElseStr m.permissionMode "default" }

/-- Sample `init` message used by witnesses and counterexamples. -/
def sampleInitMsg : SDKMessage :=
  { type := "system", subtype := some "init", session_id := some "abc12345-6789-xyz",
    model := some "claude", cwd := some "/w", tools := some ["Write"] }

/-- Sample assistant text message. -/
def sampleTextMsg : SDKMessage :=
  { type := "assistant",
    message := some { content := some [{ type := "text", text := some "hi" }] } }

/-- Sample completion (`result`) message. -/
def sampleResultMsg : SDKMessage :=
  { type := "result", num_turns := some 1, duration_ms := some 100,
    duration_api_ms := some 80,
    usage := some { input_tokens := some 5, output_tokens := some 10 },
    total_cost_usd := some 3 }

/-- Sample persisted `session_end` record. -/
def sampleSessionEndRec : Record :=
  { type := "session_end", total_exchanges := some 1, total_duration_ms := some 100,
    total_duration_api_ms := some 80, total_cost_usd := some 3,
    total_tokens := some ⟨5, 10, 0, 0⟩, tools_used := some [("Write", 1)] }

/-- Sample directory holding a previously closed session file for the session
id of `sampleInitMsg`. -/
def sampleResumeDir : Dir :=
  [("x_abc12345.jsonl",
    [Line.ok { type := "session_start" },
     Line.ok { type := "exchange", exchange := some 1 },
     Line.ok sampleSessionEndRec])]

/-- Sample directory holding a session file with an exchange record of
ordinal 5 followed by a line that does not parse as JSON. -/
def sampleCorruptDir : Dir :=
  [("x_abc12345.jsonl",
    [Line.ok { type := "exchange", exchange := some 5 }, Line.malformed])]

/-! ### Basic lemmas about the file store -/

theorem fileExists_cons (k : String) (v : List Line) (rest : Dir) (name : String) :
    fileExists ((k, v) :: rest) name = (decide (k = name) || fileExists rest name) := by
  simp [fileExists, List.any_cons]

theorem readFile_cons_ne (k : String) (v : List Line) (rest : Dir) (name : String)
    (h : k ≠ name) : readFile ((k, v) :: rest) name = readFile rest name := by
  simp [readFile, List.find?_cons, h]

theorem readFile_cons_self (k : String) (v : List Line) (rest : Dir) :
    readFile ((k, v) :: rest) k = v := by
  simp [readFile, List.find?_cons]

theorem dirAppend_cons_ne (k : String) (v : List Line) (rest : Dir) (name : String)
    (l : Line) (h : k ≠ name) :
    dirAppend ((k, v) :: rest) name l = (k, v) :: dirAppend rest name l := by
  by_cases hex : fileExists rest name
  · simp [dirAppend, fileExists_cons, h, hex]
  · simp [dirAppend, fileExists_cons, h, hex]

theorem readFile_dirAppend_self (dir : Dir) (name : String) (l : Line) :
    readFile (dirAppend dir name l) name = readFile dir name ++ [l] := by
  induction dir with
  | nil => simp [dirAppend, fileExists, readFile, List.find?_cons]
  | cons f rest ih =>
      obtain ⟨k, v⟩ := f
      by_cases h : k = name
      · subst h
        simp only [dirAppend, fileExists_cons, decide_True, Bool.true_or, if_true,
          List.map_cons]
        rw [readFile_cons_self, readFile_cons_self]
      · rw [dirAppend_cons_ne k v rest name l h, readFile_cons_ne k v rest name h,
          readFile_cons_ne k _ _ name h, ih]

theorem readFile_eq_nil_of_not_exists (dir : Dir) (name : String)
    (h : fileExists dir name = false) : readFile dir name = [] := by
  induction dir with
  | nil => simp [readFile]
  | cons f rest ih =>
      obtain ⟨k, v⟩ := f
      rw [fileExists_cons] at h
      simp only [Bool.or_eq_false_iff, decide_eq_false_iff_not] at h
      rw [readFile_cons_ne _ _ _ _ h.1, ih h.2]

theorem readFile_dirWrite_self (dir : Dir) (name : String) (L : List Line)
    (h : fileExists dir name = true) : readFile (dirWrite dir name L) name = L := by
  induction dir with
  | nil => simp [fileExists] at h
  | cons f rest ih =>
      obtain ⟨k, v⟩ := f
      by_cases hk : k = name
      · subst hk
        have h2 : dirWrite ((k, v) :: rest) k L
            = (k, L) :: List.map (fun f => if f.1 = k then (f.1, L) else f) rest := by
          simp [dirWrite]
        rw [h2, readFile_cons_self]
      · rw [fileExists_cons] at h
        simp only [hk, decide_eq_false_iff_not, Bool.false_or] at h
        simp only [dirWrite, List.map_cons, if_neg hk]
        rw [readFile_cons_ne _ _ _ _ hk]
        exact ih (by simpa using h)

theorem findExistingSessionFile_spec (dir : Dir) (sid name : String)
    (h : findExistingSessionFile dir sid = some name) :
    fileExists dir name = true ∧ name ∈ dir.map Prod.fst := by
  simp only [findExistingSessionFile, Option.map_eq_some'] at h
  obtain ⟨f, hf, hname⟩ := h
  have hmem := List.mem_of_find?_eq_some hf
  subst hname
  constructor
  · simp only [fileExists, List.any_eq_true]
    exact ⟨f, hmem, by simp⟩
  · exact List.mem_map_of_mem Prod.fst hmem

theorem keys_dirWrite (dir : Dir) (name : String) (L : List Line) :
    (dirWrite dir name L).map Prod.fst = dir.map Prod.fst := by
  simp only [dirWrite, List.map_map]
  apply List.map_congr_left
  intro f _
  by_cases hk : f.1 = name <;> simp [hk]

theorem goodDir_dirWrite (dir : Dir) (name : String) (L : List Line)
    (h : GoodDir dir) : GoodDir (dirWrite dir name L) := by
  refine ⟨by rw [keys_dirWrite]; exact h.1, ?_⟩
  intro f hf
  simp only [dirWrite, List.mem_map] at hf
  obtain ⟨g, hg, hfg⟩ := hf
  subst hfg
  by_cases hk : g.1 = name
  · rw [if_pos hk]; exact h.2 g hg
  · rw [if_neg hk]; exact h.2 g hg

theorem keys_dirAppend_exists (dir : Dir) (name : String) (l : Line)
    (h : fileExists dir name = true) :
    (dirAppend dir name l).map Prod.fst = dir.map Prod.fst := by
  simp only [dirAppend, h, if_true, List.map_map]
  apply List.map_congr_left
  intro f _
  by_cases hk : f.1 = name <;> simp [hk]

theorem goodDir_dirAppend (dir : Dir) (name : String) (l : Line)
    (h : GoodDir dir) (hn : name ≠ "") : GoodDir (dirAppend dir name l) := by
  by_cases hex : fileExists dir name
  · refine ⟨by rw [keys_dirAppend_exists dir name l hex]; exact h.1, ?_⟩
    intro f hf
    simp only [dirAppend, hex, if_true, List.mem_map] at hf
    obtain ⟨g, hg, hfg⟩ := hf
    subst hfg
    by_cases hk : g.1 = name
    · rw [if_pos hk]; exact h.2 g hg
    · rw [if_neg hk]; exact h.2 g hg
  · have hnot : name ∉ dir.map Prod.fst := by
      intro hmem
      simp only [List.mem_map] at hmem
      obtain ⟨g, hg, hfg⟩ := hmem
      have : dir.any (fun f => f.1 = name) = true :=
        List.any_eq_true.mpr ⟨g, hg, by simp [hfg]⟩
      exact absurd this (by simpa [fileExists] using hex)
    simp only [dirAppend, hex, if_false, Bool.false_eq_true]
    refine ⟨?_, ?_⟩
    · rw [List.map_append]
      simp only [List.map_cons, List.map_nil]
      exact List.Nodup.append h.1 (List.nodup_singleton name)
        (by simpa [List.disjoint_singleton] using hnot)
    · intro f hf
      rcases List.mem_append.mp hf with hf | hf
      · exact h.2 f hf
      · simp only [List.mem_singleton] at hf
        subst hf
        exact hn

theorem eq_dropLast_concat_of_getLast? {α : Type} {l : List α} {x : α}
    (h : l.getLast? = some x) : l = l.dropLast ++ [x] := by
  have hne : l ≠ [] := by rintro rfl; simp at h
  rw [List.getLast?_eq_getLast l hne, Option.some_inj] at h
  subst h
  exact (List.dropLast_concat_getLast hne).symm

theorem countLinesOfType_append (t : String) (l1 l2 : List Line) :
    countLinesOfType t (l1 ++ l2) = countLinesOfType t l1 + countLinesOfType t l2 :=
  List.countP_append _ _ _

theorem countLinesOfType_singleton (t : String) (l : Line) :
    countLinesOfType t [l] = if isTypeLine t l then 1 else 0 := by
  simp [countLinesOfType, List.countP_cons]

theorem map_fix_eq_self (rest : Dir) (k : String) (g : String × List Line → String × List Line)
    (hg : ∀ f, f.1 ≠ k → g f = f) (hk : k ∉ rest.map Prod.fst) :
    rest.map g = rest := by
  conv_rhs => rw [← List.map_id rest]
  apply List.map_congr_left
  intro f hf
  have : f.1 ≠ k := by
    intro he
    exact hk (he ▸ List.mem_map_of_mem Prod.fst hf)
  simp [hg f this]

theorem countDirOfType_dirAppend (t : String) (dir : Dir) (name : String) (l : Line)
    (h : (dir.map Prod.fst).Nodup) :
    countDirOfType t (dirAppend dir name l)
      = countDirOfType t dir + (if isTypeLine t l then 1 else 0) := by
  induction dir with
  | nil =>
      simp [dirAppend, fileExists, countDirOfType, countLinesOfType_singleton]
  | cons f rest ih =>
      obtain ⟨k, v⟩ := f
      simp only [List.map_cons, List.nodup_cons] at h
      by_cases hk : k = name
      · subst hk
        have h2 : dirAppend ((k, v) :: rest) k l
            = (k, v ++ [l]) :: List.map (fun f => if f.1 = k then (f.1, f.2 ++ [l]) else f) rest := by
          simp [dirAppend, fileExists_cons]
        rw [h2, map_fix_eq_self rest k _ (fun f hf => by simp [hf]) h.1]
        simp only [countDirOfType, List.map_cons, List.sum_cons,
          countLinesOfType_append, countLinesOfType_singleton]
        omega
      · rw [dirAppend_cons_ne k v rest name l hk]
        simp only [countDirOfType, List.map_cons, List.sum_cons] at *
        rw [ih h.2]
        omega

theorem countDirOfType_dirWrite (t : String) (dir : Dir) (name : String) (L : List Line)
    (h : (dir.map Prod.fst).Nodup) (hex : fileExists dir name = true) :
    countDirOfType t (dirWrite dir name L) + countLinesOfType t (readFile dir name)
      = countDirOfType t dir + countLinesOfType t L := by
  induction dir with
  | nil => simp [fileExists] at hex
  | cons f rest ih =>
      obtain ⟨k, v⟩ := f
      simp only [List.map_cons, List.nodup_cons] at h
      by_cases hk : k = name
      · subst hk
        have h2 : dirWrite ((k, v) :: rest) k L
            = (k, L) :: List.map (fun f => if f.1 = k then (f.1, L) else f) rest := by
          simp [dirWrite]
        rw [h2, map_fix_eq_self rest k _ (fun f hf => by simp [hf]) h.1, readFile_cons_self]
        simp only [countDirOfType, List.map_cons, List.sum_cons]
        omega
      · have h2 : dirWrite ((k, v) :: rest) name L = (k, v) :: dirWrite rest name L := by
          simp [dirWrite, hk]
        rw [fileExists_cons] at hex
        simp only [hk, decide_eq_false_iff_not, Bool.false_or] at hex
        rw [h2, readFile_cons_ne _ _ _ _ hk]
        simp only [countDirOfType, List.map_cons, List.sum_cons]
        have := ih h.2 (by simpa using hex)
        simp only [countDirOfType] at this
        omega

/-! ### Shape lemmas for the handlers and the dispatcher -/

theorem appendLine_logger (st : St) (r : Record) : (appendLine st r).logger = st.logger := by
  unfold appendLine; split <;> rfl

theorem appendLine_dir (st : St) (r : Record) (h : st.logger.filePath ≠ "") :
    (appendLine st r).dir = dirAppend st.dir st.logger.filePath (Line.ok r) := by
  simp [appendLine, h]

theorem handleAssistantMessage_shape (m : SDKMessage) (now : String) (st : St) :
    ∃ cm tu, handleAssistantMessage m now st
      = ⟨{ st.logger with currentMessages := cm, toolsUsed := tu }, st.dir⟩ := by
  cases hc : m.message.bind (fun body => body.content) with
  | none =>
      exact ⟨st.logger.currentMessages, st.logger.toolsUsed, by
        simp [handleAssistantMessage, hc]⟩
  | some blocks =>
      refine ⟨(blocks.foldl (assistantBlockStep now)
          (st.logger.currentMessages, st.logger.toolsUsed)).1,
        (blocks.foldl (assistantBlockStep now)
          (st.logger.currentMessages, st.logger.toolsUsed)).2, ?_⟩
      simp [handleAssistantMessage, hc]

theorem handleUserMessage_shape (m : SDKMessage) (now : String) (st : St) :
    ∃ cm, handleUserMessage m now st
      = ⟨{ st.logger with currentMessages := cm }, st.dir⟩ := by
  cases hc : m.message.bind (fun body => body.content) with
  | none => exact ⟨st.logger.currentMessages, by simp [handleUserMessage, hc]⟩
  | some blocks =>
      refine ⟨blocks.foldl (userBlockStep now) st.logger.currentMessages, ?_⟩
      simp [handleUserMessage, hc]

theorem handleResultMessage_logger (m : SDKMessage) (now : String) (st : St) :
    (handleResultMessage m now st).logger = { st.logger with
      totalDurationMs := st.logger.totalDurationMs + (extractStats m).duration_ms
      totalDurationApiMs := st.logger.totalDurationApiMs + (extractStats m).duration_api_ms.getD 0
      totalCostUsd := st.logger.totalCostUsd + (extractStats m).cost_usd
      lastExchangeTokens := resultTokenSnapshot m
      currentMessages := []
      currentUserInput := ""
      exchangeStartTs := "" } := by
  simp [handleResultMessage, appendLine_logger, resultTokenSnapshot]

theorem handleResultMessage_dir (m : SDKMessage) (now : String) (st : St) :
    (handleResultMessage m now st).dir
      = (appendLine st (exchangeRecord st.logger (extractStats m) now)).dir := by
  simp [handleResultMessage, appendLine_logger]

theorem close_logger (now : String) (st : St) : (close now st).logger = st.logger := by
  unfold close; split <;> simp [appendLine_logger]

theorem log_eq_result (m : SDKMessage) (now : String) (st : St) (h : m.type = "result") :
    log m now st = handleResultMessage m now st := by
  simp [log, h]

theorem log_eq_assistant (m : SDKMessage) (now : String) (st : St) (h : m.type = "assistant") :
    log m now st = handleAssistantMessage m now st := by
  simp [log, h]

theorem log_eq_user (m : SDKMessage) (now : String) (st : St) (h : m.type = "user") :
    log m now st = handleUserMessage m now st := by
  simp [log, h]

theorem log_eq_init (m : SDKMessage) (now : String) (st : St) (h1 : m.type = "system")
    (h2 : m.subtype = some "init") : log m now st = handleSystemMessage m now st := by
  simp [log, h1, h2]

theorem log_eq_id_system (m : SDKMessage) (now : String) (st : St) (h1 : m.type = "system")
    (h2 : m.subtype ≠ some "init") : log m now st = st := by
  simp [log, h1, h2]

theorem log_eq_id_other (m : SDKMessage) (now : String) (st : St)
    (h1 : m.type ≠ "system") (h2 : m.type ≠ "assistant") (h3 : m.type ≠ "user")
    (h4 : m.type ≠ "result") : log m now st = st := by
  by_cases h0 : m.type = ""
  · simp [log, h0]
  · simp [log, h0, h1, h2, h3, h4]

/-! ### Step-level invariants -/

theorem step_shape_nonInit (st : St) (e : Event) (h1 : isInitEvent e = false) :
    (step st e).logger.filePath = st.logger.filePath
    ∧ (step st e).logger.totalDurationMs = st.logger.totalDurationMs + eventDurationMs e
    ∧ (step st e).logger.totalDurationApiMs
        = st.logger.totalDurationApiMs + eventDurationApiMs e
    ∧ (step st e).logger.totalCostUsd = st.logger.totalCostUsd + eventCostUsd e
    ∧ (isResultEvent e = false →
        (step st e).logger.lastExchangeTokens = st.logger.lastExchangeTokens)
    ∧ (∀ m now, e = Event.log m now → m.type = "result" →
        (step st e).logger.lastExchangeTokens = resultTokenSnapshot m) := by
  cases e with
  | log m now =>
      simp only [isInitEvent, Bool.and_eq_false_iff, decide_eq_false_iff_not] at h1
      by_cases hr : m.type = "result"
      · have hd : step st (Event.log m now) = handleResultMessage m now st :=
          log_eq_result m now st hr
        rw [hd, handleResultMessage_logger]
        simp [eventDurationMs, eventDurationApiMs, eventCostUsd, hr, isResultEvent]
      · have hzero : eventDurationMs (Event.log m now) = 0 ∧
            eventDurationApiMs (Event.log m now) = 0 ∧
            eventCostUsd (Event.log m now) = 0 := by
          simp [eventDurationMs, eventDurationApiMs, eventCostUsd, hr]
        by_cases hs : m.type = "system"
        · have hsub : m.subtype ≠ some "init" := by
            rcases h1 with h1 | h1
            · exact absurd hs h1
            · exact h1
          have hd : step st (Event.log m now) = st := log_eq_id_system m now st hs hsub
          rw [hd]
          simp [hzero.1, hzero.2.1, hzero.2.2, hr]
        · by_cases ha : m.type = "assistant"
          · have hd : step st (Event.log m now) = handleAssistantMessage m now st :=
              log_eq_assistant m now st ha
            obtain ⟨cm, tu, hsh⟩ := handleAssistantMessage_shape m now st
            rw [hd, hsh]
            simp [hzero.1, hzero.2.1, hzero.2.2, hr]
          · by_cases hu : m.type = "user"
            · have hd : step st (Event.log m now) = handleUserMessage m now st :=
                log_eq_user m now st hu
              obtain ⟨cm, hsh⟩ := handleUserMessage_shape m now st
              rw [hd, hsh]
              simp [hzero.1, hzero.2.1, hzero.2.2, hr]
            · have hd : step st (Event.log m now) = st :=
                log_eq_id_other m now st hs ha hu hr
              rw [hd]
              simp [hzero.1, hzero.2.1, hzero.2.2, hr]
  | logUserInput text now =>
      refine ⟨rfl, ?_, ?_, ?_, fun _ => rfl, fun m now h => by exact absurd h (by simp)⟩
        <;> simp [step, logUserInput, eventDurationMs, eventDurationApiMs, eventCostUsd]
  | close now =>
      have hcl : (step st (Event.close now)).logger = st.logger := close_logger now st
      refine ⟨by rw [hcl], ?_, ?_, ?_, fun _ => by rw [hcl],
        fun m now h => by exact absurd h (by simp)⟩
        <;> rw [hcl] <;> simp [eventDurationMs, eventDurationApiMs, eventCostUsd]

theorem runEvents_cons (e : Event) (evs : List Event) (st : St) :
    runEvents (e :: evs) st = runEvents evs (step st e) := rfl

theorem runEvents_append (l1 l2 : List Event) (st : St) :
    runEvents (l1 ++ l2) st = runEvents l2 (runEvents l1 st) :=
  List.foldl_append _ _ _ _

theorem runEvents_totals (evs : List Event) (st : St)
    (h : ∀ e ∈ evs, isInitEvent e = false) :
    (runEvents evs st).logger.filePath = st.logger.filePath
    ∧ (runEvents evs st).logger.totalDurationMs
        = st.logger.totalDurationMs + sumResultDurationMs evs
    ∧ (runEvents evs st).logger.totalDurationApiMs
        = st.logger.totalDurationApiMs + sumResultDurationApiMs evs
    ∧ (runEvents evs st).logger.totalCostUsd
        = st.logger.totalCostUsd + sumResultCostUsd evs := by
  induction evs generalizing st with
  | nil =>
      simp [runEvents, sumResultDurationMs, sumResultDurationApiMs, sumResultCostUsd]
  | cons e evs ih =>
      have hstep := step_shape_nonInit st e (h e (List.mem_cons_self e evs))
      have ihs := ih (step st e) (fun e' he' => h e' (List.mem_cons_of_mem e he'))
      rw [runEvents_cons]
      refine ⟨by rw [ihs.1, hstep.1], ?_, ?_, ?_⟩
      · rw [ihs.2.1, hstep.2.1]
        simp only [sumResultDurationMs, List.map_cons, List.sum_cons]
        omega
      · rw [ihs.2.2.1, hstep.2.2.1]
        simp only [sumResultDurationApiMs, List.map_cons, List.sum_cons]
        omega
      · rw [ihs.2.2.2, hstep.2.2.2.1]
        simp only [sumResultCostUsd, List.map_cons, List.sum_cons]
        ring

theorem runEvents_lastTokens (evs : List Event) (st : St)
    (h : ∀ e ∈ evs, isInitEvent e = false ∧ isResultEvent e = false) :
    (runEvents evs st).logger.lastExchangeTokens = st.logger.lastExchangeTokens := by
  induction evs generalizing st with
  | nil => rfl
  | cons e evs ih =>
      rw [runEvents_cons, ih (step st e) (fun e' he' => h e' (List.mem_cons_of_mem e he'))]
      exact (step_shape_nonInit st e (h e (List.mem_cons_self e evs)).1).2.2.2.2.1
        (h e (List.mem_cons_self e evs)).2

theorem loadPreviousSessionStats_preserves (s : LoggerState) (lines : List Line) :
    (loadPreviousSessionStats s lines).filePath = s.filePath
    ∧ (loadPreviousSessionStats s lines).exchangeCount = s.exchangeCount
    ∧ (loadPreviousSessionStats s lines).currentMessages = s.currentMessages
    ∧ (loadPreviousSessionStats s lines).currentUserInput = s.currentUserInput
    ∧ (loadPreviousSessionStats s lines).exchangeStartTs = s.exchangeStartTs
    ∧ (loadPreviousSessionStats s lines).sessionId = s.sessionId := by
  cases h : findLastSessionEnd lines <;> simp [loadPreviousSessionStats, h]

theorem loadPreviousSessionStats_some (s : LoggerState) (lines : List Line) (r : Record)
    (h : findLastSessionEnd lines = some r) :
    (loadPreviousSessionStats s lines).totalDurationMs = r.total_duration_ms.getD 0
    ∧ (loadPreviousSessionStats s lines).totalDurationApiMs = r.total_duration_api_ms.getD 0
    ∧ (loadPreviousSessionStats s lines).totalCostUsd = r.total_cost_usd.getD 0
    ∧ (loadPreviousSessionStats s lines).lastExchangeTokens
        = r.total_tokens.getD zeroTokens := by
  simp [loadPreviousSessionStats, h]

theorem loadPreviousSessionStats_none (s : LoggerState) (lines : List Line)
    (h : findLastSessionEnd lines = none) :
    loadPreviousSessionStats s lines = s := by
  simp [loadPreviousSessionStats, h]

theorem removeLastSessionEnd_spec (st : St) (h : st.logger.filePath ≠ "") :
    (removeLastSessionEnd st).logger = st.logger
    ∧ readFile (removeLastSessionEnd st).dir st.logger.filePath
        = stripTrailingSessionEnd (readFile st.dir st.logger.filePath) := by
  unfold removeLastSessionEnd
  rw [if_neg h]
  by_cases hex : fileExists st.dir st.logger.filePath
  · rw [if_pos hex]
    cases hlast : (readFile st.dir st.logger.filePath).getLast? with
    | none =>
        simp only [hlast, stripTrailingSessionEnd]
        exact ⟨trivial, trivial⟩
    | some l =>
        cases l with
        | malformed =>
            simp only [hlast, stripTrailingSessionEnd]
            exact ⟨trivial, trivial⟩
        | ok r =>
            by_cases hse : r.type = "session_end"
            · simp only [hlast, stripTrailingSessionEnd, hse, if_true]
              exact ⟨trivial, readFile_dirWrite_self _ _ _ hex⟩
            · simp only [hlast, stripTrailingSessionEnd, if_neg hse]
              exact ⟨trivial, trivial⟩
  · rw [if_neg hex]
    have hnil := readFile_eq_nil_of_not_exists st.dir st.logger.filePath
      (by simpa using hex)
    rw [hnil]
    exact ⟨rfl, rfl⟩

theorem findLastSessionEnd_of_last_ok (lines : List Line) (r : Record)
    (hlast : lines.getLast? = some (Line.ok r)) (hse : r.type = "session_end") :
    findLastSessionEnd lines = some r := by
  have := eq_dropLast_concat_of_getLast? hlast
  rw [findLastSessionEnd, this, List.reverse_append]
  simp [findLastSessionEndGo, hse]

theorem removeLastSessionEnd_dir_of_none (st : St)
    (h : findLastSessionEnd (readFile st.dir st.logger.filePath) = none) :
    (removeLastSessionEnd st).dir = st.dir := by
  unfold removeLastSessionEnd
  by_cases hfp : st.logger.filePath = ""
  · rw [if_pos hfp]
  · rw [if_neg hfp]
    by_cases hex : fileExists st.dir st.logger.filePath
    · rw [if_pos hex]
      cases hlast : (readFile st.dir st.logger.filePath).getLast? with
      | none => simp only [hlast]
      | some l =>
          cases l with
          | malformed => simp only [hlast]
          | ok r =>
              by_cases hse : r.type = "session_end"
              · exact absurd (findLastSessionEnd_of_last_ok _ r hlast hse)
                  (by rw [h]; simp)
              · simp only [hlast, if_neg hse]
    · rw [if_neg hex]

theorem handleSystemMessage_found_eq (m : SDKMessage) (now : String) (st : St)
    (name : String)
    (hfind : findExistingSessionFile st.dir (orElseStr m.session_id "") = some name) :
    handleSystemMessage m now st = removeLastSessionEnd
      { logger := loadPreviousSessionStats
          { st.logger with
            sessionId := orElseStr m.session_id ""
            sessionModel := orElseStr m.model ""
            sessionCwd := orElseStr m.cwd ""
            sessionTools := m.tools.getD []
            sessionPermissionMode := orElseStr m.permissionMode "default"
            filePath := name
            exchangeCount := getLastExchangeNumber (readFile st.dir name) }
          (readFile st.dir name)
        dir := st.dir } := by
  simp [handleSystemMessage, hfind]

theorem getLastExchangeNumberGo_of_malformed (lines : List Line) (acc : Nat)
    (h : Line.malformed ∈ lines) : getLastExchangeNumberGo lines acc = none := by
  induction lines generalizing acc with
  | nil => cases h
  | cons l rest ih =>
      cases l with
      | malformed => rfl
      | ok r =>
          have : Line.malformed ∈ rest := by
            rcases List.mem_cons.mp h with h' | h'
            · cases h'
            · exact h'
          exact ih _ this

theorem getLastExchangeNumber_of_malformed (lines : List Line)
    (h : Line.malformed ∈ lines) : getLastExchangeNumber lines = 0 := by
  rw [getLastExchangeNumber, getLastExchangeNumberGo_of_malformed lines 0 h]
  rfl

theorem getLastExchangeNumberGo_eq (lines : List Line) (h : Line.malformed ∉ lines)
    (acc : Nat) :
    getLastExchangeNumberGo lines acc = some ((exchangeOrdinals lines).foldl max acc) := by
  induction lines generalizing acc with
  | nil => rfl
  | cons l rest ih =>
      cases l with
      | malformed => exact absurd (List.mem_cons_self _ _) h
      | ok r =>
          have hrest : Line.malformed ∉ rest := fun hm => h (List.mem_cons_of_mem _ hm)
          by_cases ht : r.type = "exchange"
          · cases he : r.exchange with
            | none =>
                simp only [getLastExchangeNumberGo, exchangeOrdinals, List.filterMap_cons,
                  ht, he, if_true, Option.getD_none]
                rw [if_neg (by simp)]
                exact ih hrest acc
            | some n =>
                simp only [getLastExchangeNumberGo, exchangeOrdinals, List.filterMap_cons,
                  ht, he, if_true, Option.getD_some, List.foldl_cons]
                rcases Nat.eq_zero_or_pos n with hn | hn
                · subst hn
                  rw [if_neg (by simp)]
                  simp only [Nat.max_zero]
                  exact ih hrest acc
                · rw [if_pos ⟨trivial, Nat.pos_iff_ne_zero.mp hn⟩]
                  exact ih hrest (max acc n)
          · simp only [getLastExchangeNumberGo, exchangeOrdinals, List.filterMap_cons,
              ht, if_false]
            rw [if_neg (by simp [ht])]
            exact ih hrest acc

theorem getLastExchangeNumber_eq_max (lines : List Line) (h : Line.malformed ∉ lines) :
    getLastExchangeNumber lines = maxExchangeOrdinal lines := by
  rw [getLastExchangeNumber, getLastExchangeNumberGo_eq lines h 0]
  rfl

theorem newFilename_ne_empty (ts sid : String) :
    fnameTimestamp ts ++ "_" ++ sid.take 8 ++ ".jsonl" ≠ "" := by
  intro h
  have hlen := congrArg String.length h
  have h1 : ("_" : String).length = 1 := rfl
  have h2 : (".jsonl" : String).length = 6 := rfl
  have h3 : ("" : String).length = 0 := rfl
  simp only [String.length_append, h1, h2, h3] at hlen
  omega

theorem handleSystemMessage_new_eq (m : SDKMessage) (now : String) (st : St)
    (hfind : findExistingSessionFile st.dir (orElseStr m.session_id "") = none) :
    handleSystemMessage m now st =
      (let s : LoggerState :=
        { st.logger with
          sessionId := orElseStr m.session_id ""
          sessionModel := orElseStr m.model ""
          sessionCwd := orElseStr m.cwd ""
          sessionTools := m.tools.getD []
          sessionPermissionMode := orElseStr m.permissionMode "default"
          filePath := fnameTimestamp now ++ "_" ++ (orElseStr m.session_id "").take 8
            ++ ".jsonl" }
      appendLine { logger := s, dir := st.dir } (sessionStartRecord s now)) := by
  simp [handleSystemMessage, hfind]

theorem newSessionFilename_ne_empty (m : SDKMessage) (now : String) :
    newSessionFilename m now ≠ "" :=
  newFilename_ne_empty now (orElseStr m.session_id "")

theorem handleSystemMessage_new_fields (m : SDKMessage) (now : String) (st : St)
    (hfind : findExistingSessionFile st.dir (orElseStr m.session_id "") = none) :
    (handleSystemMessage m now st).logger
      = { initializedLogger m st.logger with filePath := newSessionFilename m now }
    ∧ (handleSystemMessage m now st).dir
      = dirAppend st.dir (newSessionFilename m now)
          (Line.ok (sessionStartRecord
            { initializedLogger m st.logger with
              filePath := newSessionFilename m now } now)) := by
  rw [handleSystemMessage_new_eq m now st hfind]
  have hnn := newSessionFilename_ne_empty m now
  simp only [newSessionFilename] at hnn
  constructor
  · rw [appendLine_logger]
    simp [initializedLogger, newSessionFilename]
  · rw [appendLine_dir _ _ (by exact hnn)]
    simp [initializedLogger, newSessionFilename]

theorem removeLastSessionEnd_dir_cases (st : St) :
    (removeLastSessionEnd st).dir = st.dir
    ∨ ∃ r, fileExists st.dir st.logger.filePath = true
        ∧ (readFile st.dir st.logger.filePath).getLast? = some (Line.ok r)
        ∧ r.type = "session_end"
        ∧ (removeLastSessionEnd st).dir
            = dirWrite st.dir st.logger.filePath
                (readFile st.dir st.logger.filePath).dropLast := by
  unfold removeLastSessionEnd
  by_cases hfp : st.logger.filePath = ""
  · rw [if_pos hfp]; exact Or.inl rfl
  · rw [if_neg hfp]
    by_cases hex : fileExists st.dir st.logger.filePath
    · rw [if_pos hex]
      cases hlast : (readFile st.dir st.logger.filePath).getLast? with
      | none => simp only [hlast]; exact Or.inl trivial
      | some l =>
          cases l with
          | malformed => simp only [hlast]; exact Or.inl trivial
          | ok r =>
              by_cases hse : r.type = "session_end"
              · simp only [hlast, hse, if_true]
                exact Or.inr ⟨r, hex, rfl, hse, trivial⟩
              · simp only [hlast, if_neg hse]
                exact Or.inl trivial
    · rw [if_neg hex]; exact Or.inl rfl

theorem removeLastSessionEnd_logger (st : St) :
    (removeLastSessionEnd st).logger = st.logger := by
  unfold removeLastSessionEnd
  by_cases hfp : st.logger.filePath = ""
  · rw [if_pos hfp]
  · rw [if_neg hfp]
    by_cases hex : fileExists st.dir st.logger.filePath
    · rw [if_pos hex]
      cases hlast : (readFile st.dir st.logger.filePath).getLast? with
      | none => simp only [hlast]
      | some l =>
          cases l with
          | malformed => simp only [hlast]
          | ok r =>
              by_cases hse : r.type = "session_end"
              · simp only [hlast, hse, if_true]
              · simp only [hlast, if_neg hse]
    · rw [if_neg hex]

theorem countExchangeDir_removeLastSessionEnd (st : St) (hg : GoodDir st.dir) :
    countExchangeDir (removeLastSessionEnd st).dir = countExchangeDir st.dir
    ∧ GoodDir (removeLastSessionEnd st).dir := by
  rcases removeLastSessionEnd_dir_cases st with h | ⟨r, hex, hlast, hse, h⟩
  · rw [h]; exact ⟨rfl, hg⟩
  · rw [h]
    constructor
    · have hsplit := eq_dropLast_concat_of_getLast? hlast
      have hcw := countDirOfType_dirWrite "exchange" st.dir st.logger.filePath
        (readFile st.dir st.logger.filePath).dropLast hg.1 hex
      have hcnt : countLinesOfType "exchange" (readFile st.dir st.logger.filePath)
          = countLinesOfType "exchange" (readFile st.dir st.logger.filePath).dropLast := by
        conv_lhs => rw [hsplit]
        rw [countLinesOfType_append, countLinesOfType_singleton]
        simp [isTypeLine, hse]
      simp only [countExchangeDir]
      omega
    · exact goodDir_dirWrite _ _ _ hg

theorem step_good_count (st : St) (e : Event) (hg : GoodDir st.dir)
    (hfp : st.logger.filePath ≠ "") :
    GoodDir (step st e).dir ∧ (step st e).logger.filePath ≠ ""
    ∧ countExchangeDir (step st e).dir
        = countExchangeDir st.dir + (if isResultEvent e then 1 else 0) := by
  cases e with
  | logUserInput text now =>
      exact ⟨hg, hfp, by simp [step, logUserInput, isResultEvent]⟩
  | close now =>
      have hd : (step st (Event.close now)).dir
          = dirAppend st.dir st.logger.filePath
              (Line.ok (sessionEndRecord st.logger now)) := by
        simp only [step, close, if_neg hfp]
        exact appendLine_dir st _ hfp
      refine ⟨by rw [hd]; exact goodDir_dirAppend _ _ _ hg hfp, ?_, ?_⟩
      · have := close_logger now st
        simp only [step] at *
        rw [this]; exact hfp
      · rw [hd]
        simp only [countExchangeDir]
        rw [countDirOfType_dirAppend _ _ _ _ hg.1]
        simp [isTypeLine, sessionEndRecord, isResultEvent]
  | log m now =>
      by_cases hr : m.type = "result"
      · have hd : step st (Event.log m now) = handleResultMessage m now st :=
          log_eq_result m now st hr
        have hdir : (handleResultMessage m now st).dir
            = dirAppend st.dir st.logger.filePath
                (Line.ok (exchangeRecord st.logger (extractStats m) now)) := by
          rw [handleResultMessage_dir]
          exact appendLine_dir st _ hfp
        refine ⟨?_, ?_, ?_⟩
        · rw [hd, hdir]; exact goodDir_dirAppend _ _ _ hg hfp
        · rw [hd, handleResultMessage_logger]; exact hfp
        · rw [hd, hdir]
          simp only [countExchangeDir]
          rw [countDirOfType_dirAppend _ _ _ _ hg.1]
          simp [isTypeLine, exchangeRecord, isResultEvent, hr]
      · have hres : isResultEvent (Event.log m now) = false := by
          simp [isResultEvent, hr]
        rw [hres, if_neg (by simp)]
        by_cases hs : m.type = "system"
        · by_cases hsub : m.subtype = some "init"
          · have hd : step st (Event.log m now) = handleSystemMessage m now st :=
              log_eq_init m now st hs hsub
            cases hfind : findExistingSessionFile st.dir (orElseStr m.session_id "") with
            | some name =>
                have hns := findExistingSessionFile_spec st.dir _ name hfind
                have hnname : name ≠ "" := by
                  rcases List.mem_map.mp hns.2 with ⟨f, hf, hfe⟩
                  exact hfe ▸ hg.2 f hf
                rw [hd, handleSystemMessage_found_eq m now st name hfind]
                set s2 : LoggerState := loadPreviousSessionStats
                  { st.logger with
                    sessionId := orElseStr m.session_id ""
                    sessionModel := orElseStr m.model ""
                    sessionCwd := orElseStr m.cwd ""
                    sessionTools := m.tools.getD []
                    sessionPermissionMode := orElseStr m.permissionMode "default"
                    filePath := name
                    exchangeCount := getLastExchangeNumber (readFile st.dir name) }
                  (readFile st.dir name) with hs2
                have hs2fp : s2.filePath = name := by
                  rw [hs2]
                  exact (loadPreviousSessionStats_preserves _ _).1
                have hcnt := countExchangeDir_removeLastSessionEnd
                  { logger := s2, dir := st.dir } (by exact hg)
                refine ⟨hcnt.2, ?_, by simpa using hcnt.1⟩
                rw [removeLastSessionEnd_logger]
                simpa [hs2fp] using hnname
            | none =>
                have hflds := handleSystemMessage_new_fields m now st hfind
                have hnn := newSessionFilename_ne_empty m now
                refine ⟨?_, ?_, ?_⟩
                · rw [hd, hflds.2]; exact goodDir_dirAppend _ _ _ hg hnn
                · rw [hd, hflds.1]; exact hnn
                · rw [hd, hflds.2]
                  simp only [countExchangeDir]
                  rw [countDirOfType_dirAppend _ _ _ _ hg.1]
                  simp [isTypeLine, sessionStartRecord]
          · have hd : step st (Event.log m now) = st := log_eq_id_system m now st hs hsub
            rw [hd]
            exact ⟨hg, hfp, by simp [isResultEvent, hr]⟩
        · by_cases ha : m.type = "assistant"
          · obtain ⟨cm, tu, hsh⟩ := handleAssistantMessage_shape m now st
            have hd : step st (Event.log m now) = handleAssistantMessage m now st :=
              log_eq_assistant m now st ha
            rw [hd, hsh]
            exact ⟨hg, hfp, by simp [isResultEvent, hr]⟩
          · by_cases hu : m.type = "user"
            · obtain ⟨cm, hsh⟩ := handleUserMessage_shape m now st
              have hd : step st (Event.log m now) = handleUserMessage m now st :=
                log_eq_user m now st hu
              rw [hd, hsh]
              exact ⟨hg, hfp, by simp [isResultEvent, hr]⟩
            · have hd : step st (Event.log m now) = st :=
                log_eq_id_other m now st hs ha hu hr
              rw [hd]
              exact ⟨hg, hfp, by simp [isResultEvent, hr]⟩

theorem runEvents_good_count (evs : List Event) (st : St) (hg : GoodDir st.dir)
    (hfp : st.logger.filePath ≠ "") :
    GoodDir (runEvents evs st).dir ∧ (runEvents evs st).logger.filePath ≠ ""
    ∧ countExchangeDir (runEvents evs st).dir
        = countExchangeDir st.dir + countResultEvents evs := by
  induction evs generalizing st with
  | nil => exact ⟨hg, hfp, by simp [runEvents, countResultEvents]⟩
  | cons e evs ih =>
      have hstep := step_good_count st e hg hfp
      have ihs := ih (step st e) hstep.1 hstep.2.1
      rw [runEvents_cons]
      refine ⟨ihs.1, ihs.2.1, ?_⟩
      rw [ihs.2.2, hstep.2.2]
      simp only [countResultEvents, List.countP_cons]
      omega


theorem strEndsWith_empty_left (post : String) (hp : post ≠ "") :
    strEndsWith "" post = false := by
  rw [strEndsWith]
  by_cases h : post.data.isSuffixOf ("" : String).data
  · exfalso
    have h2 := List.isSuffixOf_iff_suffix.mp h
    have h3 : post.data = [] := List.suffix_nil.mp h2
    exact hp (String.ext h3)
  · simpa only [Bool.not_eq_true] using h

theorem suffixPattern_ne_empty (sid : String) : ("_" ++ sid.take 8 ++ ".jsonl") ≠ "" := by
  intro h
  have hlen := congrArg String.length h
  have h1 : ("_" : String).length = 1 := rfl
  have h2 : (".jsonl" : String).length = 6 := rfl
  have h3 : ("" : String).length = 0 := rfl
  simp only [String.length_append, h1, h2, h3] at hlen
  omega

theorem findExistingSessionFile_name_ne (dir : Dir) (sid name : String)
    (h : findExistingSessionFile dir sid = some name) : name ≠ "" := by
  simp only [findExistingSessionFile, Option.map_eq_some'] at h
  obtain ⟨f, hf, hname⟩ := h
  have hp := List.find?_some hf
  intro he
  rw [hname, he] at hp
  rw [strEndsWith_empty_left _ (suffixPattern_ne_empty sid)] at hp
  exact Bool.false_ne_true hp

theorem handleSystemMessage_found_fields (m : SDKMessage) (now : String) (st : St)
    (name : String)
    (hfind : findExistingSessionFile st.dir (orElseStr m.session_id "") = some name) :
    (handleSystemMessage m now st).logger.filePath = name
    ∧ (handleSystemMessage m now st).logger.exchangeCount
        = getLastExchangeNumber (readFile st.dir name)
    ∧ (handleSystemMessage m now st).logger.currentMessages = st.logger.currentMessages
    ∧ (handleSystemMessage m now st).logger.currentUserInput = st.logger.currentUserInput
    ∧ (handleSystemMessage m now st).logger.exchangeStartTs = st.logger.exchangeStartTs
    ∧ readFile (handleSystemMessage m now st).dir name
        = stripTrailingSessionEnd (readFile st.dir name)
    ∧ (handleSystemMessage m now st).logger
        = (removeLastSessionEnd
            { logger := loadPreviousSessionStats
                ({ initializedLogger m st.logger with
                    filePath := name
                    exchangeCount := getLastExchangeNumber (readFile st.dir name) })
                (readFile st.dir name),
              dir := st.dir }).logger := by
  have hname := findExistingSessionFile_name_ne st.dir _ name hfind
  have heq := handleSystemMessage_found_eq m now st name hfind
  set s2 : LoggerState := loadPreviousSessionStats
    { st.logger with
      sessionId := orElseStr m.session_id ""
      sessionModel := orElseStr m.model ""
      sessionCwd := orElseStr m.cwd ""
      sessionTools := m.tools.getD []
      sessionPermissionMode := orElseStr m.permissionMode "default"
      filePath := name
      exchangeCount := getLastExchangeNumber (readFile st.dir name) }
    (readFile st.dir name) with hs2
  have hpres := loadPreviousSessionStats_preserves
    { st.logger with
      sessionId := orElseStr m.session_id ""
      sessionModel := orElseStr m.model ""
      sessionCwd := orElseStr m.cwd ""
      sessionTools := m.tools.getD []
      sessionPermissionMode := orElseStr m.permissionMode "default"
      filePath := name
      exchangeCount := getLastExchangeNumber (readFile st.dir name) }
    (readFile st.dir name)
  have hfp2 : s2.filePath = name := by rw [hs2]; exact hpres.1
  have hrl := removeLastSessionEnd_logger { logger := s2, dir := st.dir }
  have hspec := removeLastSessionEnd_spec { logger := s2, dir := st.dir }
    (by simpa [hfp2] using hname)
  refine ⟨?_, ?_, ?_, ?_, ?_, ?_, ?_⟩
  · rw [heq, hrl]; exact hfp2
  · rw [heq, hrl, hs2]; exact hpres.2.1
  · rw [heq, hrl, hs2]; exact hpres.2.2.1
  · rw [heq, hrl, hs2]; exact hpres.2.2.2.1
  · rw [heq, hrl, hs2]; exact hpres.2.2.2.2.1
  · rw [heq]
    have := hspec.2
    simpa [hfp2] using this
  · rw [heq]
    rfl


theorem step_activeFile (st : St) (e : Event) (hfp : st.logger.filePath ≠ "")
    (hni : isInitEvent e = false) (hnc : isCloseEvent e = false) :
    (step st e).logger.filePath = st.logger.filePath
    ∧ ∃ extra : List Line, (∀ l ∈ extra, isTypeLine "session_end" l = false)
        ∧ readFile (step st e).dir st.logger.filePath
            = readFile st.dir st.logger.filePath ++ extra := by
  cases e with
  | logUserInput text now =>
      exact ⟨rfl, [], by simp, by simp [step, logUserInput]⟩
  | close now => exact absurd hnc (by simp [isCloseEvent])
  | log m now =>
      by_cases hr : m.type = "result"
      · have hd : step st (Event.log m now) = handleResultMessage m now st :=
          log_eq_result m now st hr
        refine ⟨by rw [hd, handleResultMessage_logger], ?_⟩
        refine ⟨[Line.ok (exchangeRecord st.logger (extractStats m) now)],
          by simp [isTypeLine, exchangeRecord], ?_⟩
        rw [hd, handleResultMessage_dir, appendLine_dir st _ hfp,
          readFile_dirAppend_self]
      · by_cases hs : m.type = "system"
        · have hsub : m.subtype ≠ some "init" := by
            intro hc
            rw [show isInitEvent (Event.log m now)
              = (decide (m.type = "system") && decide (m.subtype = some "init")) from rfl,
              decide_eq_true hs, decide_eq_true hc] at hni
            simp at hni
          have hd : step st (Event.log m now) = st := log_eq_id_system m now st hs hsub
          exact ⟨by rw [hd], [], by simp, by rw [hd]; simp⟩
        · by_cases ha : m.type = "assistant"
          · obtain ⟨cm, tu, hsh⟩ := handleAssistantMessage_shape m now st
            have hd : step st (Event.log m now) = handleAssistantMessage m now st :=
              log_eq_assistant m now st ha
            exact ⟨by rw [hd, hsh], [], by simp, by rw [hd, hsh]; simp⟩
          · by_cases hu : m.type = "user"
            · obtain ⟨cm, hsh⟩ := handleUserMessage_shape m now st
              have hd : step st (Event.log m now) = handleUserMessage m now st :=
                log_eq_user m now st hu
              exact ⟨by rw [hd, hsh], [], by simp, by rw [hd, hsh]; simp⟩
            · have hd : step st (Event.log m now) = st :=
                log_eq_id_other m now st hs ha hu hr
              exact ⟨by rw [hd], [], by simp, by rw [hd]; simp⟩

theorem runEvents_activeFile (evs : List Event) (st : St)
    (hfp : st.logger.filePath ≠ "")
    (h : ∀ e ∈ evs, isInitEvent e = false ∧ isCloseEvent e = false) :
    (runEvents evs st).logger.filePath = st.logger.filePath
    ∧ ∃ extra : List Line, (∀ l ∈ extra, isTypeLine "session_end" l = false)
        ∧ readFile (runEvents evs st).dir st.logger.filePath
            = readFile st.dir st.logger.filePath ++ extra := by
  induction evs generalizing st with
  | nil => exact ⟨rfl, [], by simp, by simp [runEvents]⟩
  | cons e evs ih =>
      have hstep := step_activeFile st e hfp (h e (List.mem_cons_self e evs)).1
        (h e (List.mem_cons_self e evs)).2
      obtain ⟨hfp1, extra1, hext1, hrd1⟩ := hstep
      have ihs := ih (step st e) (by rw [hfp1]; exact hfp)
        (fun e' he' => h e' (List.mem_cons_of_mem e he'))
      obtain ⟨hfp2, extra2, hext2, hrd2⟩ := ihs
      rw [runEvents_cons]
      refine ⟨by rw [hfp2, hfp1], extra1 ++ extra2, ?_, ?_⟩
      · intro l hl
        rcases List.mem_append.mp hl with hl | hl
        · exact hext1 l hl
        · exact hext2 l hl
      · rw [hfp1] at hrd2
        rw [hrd2, hrd1, List.append_assoc]


theorem close_eq (now : String) (st : St) (h : st.logger.filePath ≠ "") :
    close now st = appendLine st (sessionEndRecord st.logger now) := by
  unfold close
  rw [if_neg h]

/-! ### Claim theorems -/

/-- C6 counterexample: the claim states that the begin-exchange operation
(`logUserInput`) clears the sub-event buffer in any state, but the buffer is
left untouched — after an assistant text sub-event has been buffered, a
subsequent `logUserInput` call leaves it in the buffer. -/
theorem c6_counterexample :
    (logUserInput "b" "t3" (runEvents
      [Event.log sampleInitMsg "t0", Event.logUserInput "a" "t1",
        Event.log sampleTextMsg "t2"]
      (initialSt []))).logger.currentMessages ≠ [] := by decide

/-- C6 (amended): `logUserInput` increments the exchange counter, records the
start timestamp, and stores the supplied user input text; the sub-event
buffer is left unchanged (it is cleared only when an exchange completes), and
nothing is written to the file. -/
theorem c6_amended (userText now : String) (st : St) :
    (logUserInput userText now st).logger.exchangeCount = st.logger.exchangeCount + 1
    ∧ (logUserInput userText now st).logger.exchangeStartTs = now
    ∧ (logUserInput userText now st).logger.currentUserInput = userText
    ∧ (logUserInput userText now st).logger.currentMessages = st.logger.currentMessages
    ∧ (logUserInput userText now st).dir = st.dir :=
  ⟨rfl, rfl, rfl, rfl, rfl⟩

/-- C9: the resumption scan (`getLastExchangeNumber`) parses every line
inside one try/catch, so when any line of the adopted file fails to parse the
scan returns 0 and the exchange counter restarts from 0 — the next begun
exchange is numbered 1 — even when valid exchange records with higher
ordinals exist in the file. -/
theorem c9_malformed_scan_resets (m : SDKMessage) (now t now2 : String)
    (st : St) (name : String)
    (h1 : m.type = "system") (h2 : m.subtype = some "init")
    (hfind : findExistingSessionFile st.dir (orElseStr m.session_id "") = some name)
    (hmal : Line.malformed ∈ readFile st.dir name) :
    (∀ ls : List Line, Line.malformed ∈ ls → getLastExchangeNumber ls = 0)
    ∧ (log m now st).logger.exchangeCount = 0
    ∧ (logUserInput t now2 (log m now st)).logger.exchangeCount = 1 := by
  have hz := getLastExchangeNumber_of_malformed _ hmal
  have hf := handleSystemMessage_found_fields m now st name hfind
  have hcount : (log m now st).logger.exchangeCount = 0 := by
    rw [log_eq_init m now st h1 h2, hf.2.1, hz]
  refine ⟨fun ls hls => getLastExchangeNumber_of_malformed ls hls, hcount, ?_⟩
  show (log m now st).logger.exchangeCount + 1 = 1
  rw [hcount]

/-- C9 witness: a file containing an exchange record of ordinal 5 and a
malformed line is adopted with the exchange counter reset to 0. -/
theorem c9_witness :
    sampleInitMsg.type = "system"
    ∧ sampleInitMsg.subtype = some "init"
    ∧ findExistingSessionFile (initialSt sampleCorruptDir).dir
        (orElseStr sampleInitMsg.session_id "") = some "x_abc12345.jsonl"
    ∧ Line.malformed ∈ readFile (initialSt sampleCorruptDir).dir "x_abc12345.jsonl"
    ∧ ((∀ ls : List Line, Line.malformed ∈ ls → getLastExchangeNumber ls = 0)
      ∧ (log sampleInitMsg "t0" (initialSt sampleCorruptDir)).logger.exchangeCount = 0
      ∧ (logUserInput "u" "t1"
          (log sampleInitMsg "t0" (initialSt sampleCorruptDir))).logger.exchangeCount = 1) :=
  ⟨rfl, rfl, by decide, by decide,
    c9_malformed_scan_resets sampleInitMsg "t0" "u" "t1" (initialSt sampleCorruptDir)
      "x_abc12345.jsonl" rfl rfl (by decide) (by decide)⟩

/-- C1: an init-class event whose session identifier matches an existing,
fully parseable log file adopts that file (the file's new contents are
exactly the old contents with the trailing `session_end` line removed, so no
`session_start` record is added), resumes the exchange counter from the
highest exchange ordinal recorded in the file, and numbers the next begun
exchange one higher. -/
theorem c1_resumption (m : SDKMessage) (now t now2 : String) (st : St) (name : String)
    (h1 : m.type = "system") (h2 : m.subtype = some "init")
    (hfind : findExistingSessionFile st.dir (orElseStr m.session_id "") = some name)
    (hwf : Line.malformed ∉ readFile st.dir name) :
    (log m now st).logger.filePath = name
    ∧ readFile (log m now st).dir name
        = stripTrailingSessionEnd (readFile st.dir name)
    ∧ (log m now st).logger.exchangeCount = maxExchangeOrdinal (readFile st.dir name)
    ∧ (logUserInput t now2 (log m now st)).logger.exchangeCount
        = maxExchangeOrdinal (readFile st.dir name) + 1 := by
  have hf := handleSystemMessage_found_fields m now st name hfind
  rw [log_eq_init m now st h1 h2]
  refine ⟨hf.1, hf.2.2.2.2.2.1, ?_, ?_⟩
  · rw [hf.2.1, getLastExchangeNumber_eq_max _ hwf]
  · show (handleSystemMessage m now st).logger.exchangeCount + 1 = _
    rw [hf.2.1, getLastExchangeNumber_eq_max _ hwf]

/-- C1 witness: resuming the sample closed session file adopts it, trims its
trailing `session_end`, and resumes the counter from ordinal 1 so the next
exchange is numbered 2. -/
theorem c1_witness :
    sampleInitMsg.type = "system"
    ∧ sampleInitMsg.subtype = some "init"
    ∧ findExistingSessionFile (initialSt sampleResumeDir).dir
        (orElseStr sampleInitMsg.session_id "") = some "x_abc12345.jsonl"
    ∧ Line.malformed ∉ readFile (initialSt sampleResumeDir).dir "x_abc12345.jsonl"
    ∧ ((log sampleInitMsg "t0" (initialSt sampleResumeDir)).logger.filePath
          = "x_abc12345.jsonl"
      ∧ readFile (log sampleInitMsg "t0" (initialSt sampleResumeDir)).dir
          "x_abc12345.jsonl"
          = stripTrailingSessionEnd
              (readFile (initialSt sampleResumeDir).dir "x_abc12345.jsonl")
      ∧ (log sampleInitMsg "t0" (initialSt sampleResumeDir)).logger.exchangeCount
          = maxExchangeOrdinal (readFile (initialSt sampleResumeDir).dir "x_abc12345.jsonl")
      ∧ (logUserInput "u" "t1"
            (log sampleInitMsg "t0" (initialSt sampleResumeDir))).logger.exchangeCount
          = maxExchangeOrdinal (readFile (initialSt sampleResumeDir).dir "x_abc12345.jsonl")
            + 1) :=
  ⟨rfl, rfl, by decide, by decide,
    c1_resumption sampleInitMsg "t0" "u" "t1" (initialSt sampleResumeDir)
      "x_abc12345.jsonl" rfl rfl (by decide) (by decide)⟩


/-- C4 counterexample: a second init-class event for the same session is not
a no-op — when the file was closed (ends in `session_end`), re-processing the
init event rewrites the file, removing that line: the file length changes,
contradicting "writes nothing to the file". -/
theorem c4_counterexample :
    (readFile (log sampleInitMsg "t2"
        (runEvents [Event.log sampleInitMsg "t0", Event.close "t1"]
          (initialSt []))).dir "t0_abc12345.jsonl").length
    ≠ (readFile (runEvents [Event.log sampleInitMsg "t0", Event.close "t1"]
        (initialSt [])).dir "t0_abc12345.jsonl").length := by decide

/-- C4 (amended): a second init-class event whose session id resolves to the
already-active file leaves the file path, in-flight exchange buffer, and
aggregated totals unchanged and writes nothing to the file, provided the
file contains no `session_end` record reachable by the backward scan; the
exchange counter is not preserved but recomputed from the file (unchanged
exactly when no begun exchange is still unpersisted).  When the file ends in
a `session_end` line (the session was closed), that line is removed — a file
write. -/
theorem c4_amended (m : SDKMessage) (now : String) (st : St)
    (h1 : m.type = "system") (h2 : m.subtype = some "init")
    (hfind : findExistingSessionFile st.dir (orElseStr m.session_id "")
        = some st.logger.filePath)
    (hnose : findLastSessionEnd (readFile st.dir st.logger.filePath) = none) :
    (log m now st).logger.filePath = st.logger.filePath
    ∧ (log m now st).logger.currentMessages = st.logger.currentMessages
    ∧ (log m now st).logger.currentUserInput = st.logger.currentUserInput
    ∧ (log m now st).logger.exchangeStartTs = st.logger.exchangeStartTs
    ∧ (log m now st).logger.totalDurationMs = st.logger.totalDurationMs
    ∧ (log m now st).logger.totalDurationApiMs = st.logger.totalDurationApiMs
    ∧ (log m now st).logger.totalCostUsd = st.logger.totalCostUsd
    ∧ (log m now st).logger.lastExchangeTokens = st.logger.lastExchangeTokens
    ∧ (log m now st).logger.toolsUsed = st.logger.toolsUsed
    ∧ (log m now st).dir = st.dir
    ∧ (log m now st).logger.exchangeCount
        = getLastExchangeNumber (readFile st.dir st.logger.filePath) := by
  have heq := handleSystemMessage_found_eq m now st st.logger.filePath hfind
  rw [loadPreviousSessionStats_none _ _ hnose] at heq
  rw [log_eq_init m now st h1 h2, heq]
  have hrl := removeLastSessionEnd_logger
    { logger :=
        { st.logger with
          sessionId := orElseStr m.session_id ""
          sessionModel := orElseStr m.model ""
          sessionCwd := orElseStr m.cwd ""
          sessionTools := m.tools.getD []
          sessionPermissionMode := orElseStr m.permissionMode "default"
          filePath := st.logger.filePath
          exchangeCount := getLastExchangeNumber (readFile st.dir st.logger.filePath) }
      dir := st.dir }
  refine ⟨?_, ?_, ?_, ?_, ?_, ?_, ?_, ?_, ?_, ?_, ?_⟩ <;>
    first
      | exact removeLastSessionEnd_dir_of_none _ hnose
      | rw [hrl]

/-- C4 witness: immediately after a fresh init the file holds only
`session_start`; re-processing the same init event is then a complete
no-op. -/
theorem c4_witness :
    sampleInitMsg.type = "system"
    ∧ sampleInitMsg.subtype = some "init"
    ∧ findExistingSessionFile
        (runEvents [Event.log sampleInitMsg "t0"] (initialSt [])).dir
        (orElseStr sampleInitMsg.session_id "")
        = some (runEvents [Event.log sampleInitMsg "t0"]
            (initialSt [])).logger.filePath
    ∧ findLastSessionEnd (readFile
        (runEvents [Event.log sampleInitMsg "t0"] (initialSt [])).dir
        (runEvents [Event.log sampleInitMsg "t0"] (initialSt [])).logger.filePath)
        = none
    ∧ ((log sampleInitMsg "t2" (runEvents [Event.log sampleInitMsg "t0"]
          (initialSt []))).dir
        = (runEvents [Event.log sampleInitMsg "t0"] (initialSt [])).dir) :=
  ⟨rfl, rfl, by decide, by decide,
    (c4_amended sampleInitMsg "t2"
      (runEvents [Event.log sampleInitMsg "t0"] (initialSt []))
      rfl rfl (by decide) (by decide)).2.2.2.2.2.2.2.2.2.1⟩


/-- C5 counterexample: calling `close()` twice appends two `session_end`
records — the file does not end with exactly one. -/
theorem c5_counterexample :
    countLinesOfType "session_end"
      (readFile (runEvents [Event.log sampleInitMsg "t0", Event.close "t1",
          Event.close "t2"] (initialSt [])).dir
        (runEvents [Event.log sampleInitMsg "t0", Event.close "t1", Event.close "t2"]
          (initialSt [])).logger.filePath) ≠ 1
    ∧ countLinesOfType "session_end"
      (readFile (runEvents [Event.log sampleInitMsg "t0", Event.close "t1",
          Event.close "t2"] (initialSt [])).dir
        (runEvents [Event.log sampleInitMsg "t0", Event.close "t1", Event.close "t2"]
          (initialSt [])).logger.filePath) = 2 := by
  constructor <;> decide

/-- C5 (amended): each `close()` call appends one `session_end` record
carrying the current totals, so repeated calls accumulate one record per
call rather than re-writing; the exactly-one property is restored through
resumption — resuming a file whose single `session_end` record is its last
line removes that line, and after further non-init non-close events and one
`close()` the file holds exactly one `session_end` record, as its last
line, after all exchange records. -/
theorem c5_amended :
    (∀ (st : St) (now1 now2 : String), st.logger.filePath ≠ "" →
      readFile (close now2 (close now1 st)).dir st.logger.filePath
        = readFile st.dir st.logger.filePath
          ++ [Line.ok (sessionEndRecord st.logger now1),
              Line.ok (sessionEndRecord st.logger now2)])
    ∧ (∀ (m : SDKMessage) (now nowc : String) (st : St) (name : String)
        (r : Record) (evs : List Event),
      m.type = "system" → m.subtype = some "init" →
      findExistingSessionFile st.dir (orElseStr m.session_id "") = some name →
      (readFile st.dir name).getLast? = some (Line.ok r) →
      r.type = "session_end" →
      countLinesOfType "session_end" (readFile st.dir name) = 1 →
      (∀ e ∈ evs, isInitEvent e = false ∧ isCloseEvent e = false) →
      countLinesOfType "session_end"
        (readFile (close nowc (runEvents evs (log m now st))).dir name) = 1
      ∧ (readFile (close nowc (runEvents evs (log m now st))).dir name).getLast?
          = some (Line.ok (sessionEndRecord
              (runEvents evs (log m now st)).logger nowc))) := by
  constructor
  · intro st now1 now2 hfp
    have hl1 : (close now1 st).logger = st.logger := close_logger now1 st
    have e1 : close now1 st = appendLine st (sessionEndRecord st.logger now1) :=
      close_eq now1 st hfp
    have e2 : close now2 (close now1 st)
        = appendLine (close now1 st)
            (sessionEndRecord (close now1 st).logger now2) :=
      close_eq now2 (close now1 st) (by rw [hl1]; exact hfp)
    rw [e2, appendLine_dir _ _ (by rw [hl1]; exact hfp), hl1]
    rw [readFile_dirAppend_self]
    conv_lhs => rw [e1, appendLine_dir _ _ hfp, readFile_dirAppend_self]
    rw [List.append_assoc]
    rfl
  · intro m now nowc st name r evs h1 h2 hfind hlast hse hone hevs
    have hname := findExistingSessionFile_name_ne st.dir _ name hfind
    have hf := handleSystemMessage_found_fields m now st name hfind
    have hstrip : stripTrailingSessionEnd (readFile st.dir name)
        = (readFile st.dir name).dropLast := by
      simp only [stripTrailingSessionEnd, hlast, hse, if_true]
    have hsplit := eq_dropLast_concat_of_getLast? hlast
    have hzero : countLinesOfType "session_end" (readFile st.dir name).dropLast = 0 := by
      have hcc : countLinesOfType "session_end" (readFile st.dir name)
          = countLinesOfType "session_end" (readFile st.dir name).dropLast + 1 := by
        conv_lhs => rw [hsplit]
        rw [countLinesOfType_append, countLinesOfType_singleton]
        simp [isTypeLine, hse]
      omega
    have hfp1 : (log m now st).logger.filePath = name := by
      rw [log_eq_init m now st h1 h2]; exact hf.1
    have hfile1 : readFile (log m now st).dir name
        = (readFile st.dir name).dropLast := by
      rw [log_eq_init m now st h1 h2, hf.2.2.2.2.2.1, hstrip]
    obtain ⟨hfp2, extra, hext, hrd⟩ := runEvents_activeFile evs (log m now st)
      (by rw [hfp1]; exact hname) hevs
    rw [hfp1] at hfp2 hrd
    have hc2 : countLinesOfType "session_end"
        (readFile (runEvents evs (log m now st)).dir name) = 0 := by
      rw [hrd, hfile1, countLinesOfType_append, hzero]
      have hcx : countLinesOfType "session_end" extra = 0 :=
        List.countP_eq_zero.mpr (fun l hl => by simpa using hext l hl)
      omega
    have hcl : close nowc (runEvents evs (log m now st))
        = appendLine (runEvents evs (log m now st))
            (sessionEndRecord (runEvents evs (log m now st)).logger nowc) :=
      close_eq nowc _ (by rw [hfp2]; exact hname)
    have hfinal : readFile (close nowc (runEvents evs (log m now st))).dir name
        = readFile (runEvents evs (log m now st)).dir name
          ++ [Line.ok (sessionEndRecord (runEvents evs (log m now st)).logger nowc)] := by
      rw [hcl, appendLine_dir _ _ (by rw [hfp2]; exact hname), hfp2]
      rw [readFile_dirAppend_self]
    refine ⟨?_, ?_⟩
    · rw [hfinal, countLinesOfType_append, hc2, countLinesOfType_singleton]
      simp [isTypeLine, sessionEndRecord]
    · rw [hfinal, List.getLast?_concat]

/-- C5 witness: resuming the sample closed file (one trailing `session_end`)
and closing again yields exactly one `session_end` record, as the last
line. -/
theorem c5_witness :
    sampleInitMsg.type = "system"
    ∧ sampleInitMsg.subtype = some "init"
    ∧ findExistingSessionFile (initialSt sampleResumeDir).dir
        (orElseStr sampleInitMsg.session_id "") = some "x_abc12345.jsonl"
    ∧ (readFile (initialSt sampleResumeDir).dir "x_abc12345.jsonl").getLast?
        = some (Line.ok sampleSessionEndRec)
    ∧ sampleSessionEndRec.type = "session_end"
    ∧ countLinesOfType "session_end"
        (readFile (initialSt sampleResumeDir).dir "x_abc12345.jsonl") = 1
    ∧ (countLinesOfType "session_end"
        (readFile (close "tc" (runEvents []
          (log sampleInitMsg "t0" (initialSt sampleResumeDir)))).dir
          "x_abc12345.jsonl") = 1
      ∧ (readFile (close "tc" (runEvents []
          (log sampleInitMsg "t0" (initialSt sampleResumeDir)))).dir
          "x_abc12345.jsonl").getLast?
          = some (Line.ok (sessionEndRecord
              (runEvents [] (log sampleInitMsg "t0"
                (initialSt sampleResumeDir))).logger "tc"))) :=
  ⟨rfl, rfl, by decide, by decide, rfl, by decide,
    c5_amended.2 sampleInitMsg "t0" "tc" (initialSt sampleResumeDir)
      "x_abc12345.jsonl" sampleSessionEndRec [] rfl rfl (by decide) (by decide) rfl
      (by decide) (by simp)⟩


/-- C2: the `total_tokens` field of the `session_end` record written by
`close()` always equals the token usage of the most recently completed
exchange (replaced on each completion, never summed); when no exchange has
completed since initialization it is the all-zero snapshot, and after a
resumption it is the snapshot loaded from the prior `session_end` record;
`close()` appends exactly this record to the active file. -/
theorem c2_token_snapshot :
    (∀ (st0 : St) (pre post : List Event) (m : SDKMessage) (now nowc : String),
      m.type = "result" →
      (∀ e ∈ post, isInitEvent e = false ∧ isResultEvent e = false) →
      (sessionEndRecord (runEvents (pre ++ Event.log m now :: post) st0).logger
        nowc).total_tokens = some (resultTokenSnapshot m))
    ∧ (∀ (st0 : St) (evs : List Event) (nowc : String),
      (∀ e ∈ evs, isInitEvent e = false ∧ isResultEvent e = false) →
      (sessionEndRecord (runEvents evs st0).logger nowc).total_tokens
        = some st0.logger.lastExchangeTokens)
    ∧ (∀ dir : Dir, (initialSt dir).logger.lastExchangeTokens = zeroTokens)
    ∧ (∀ (m : SDKMessage) (now : String) (st : St) (name : String) (r : Record),
      m.type = "system" → m.subtype = some "init" →
      findExistingSessionFile st.dir (orElseStr m.session_id "") = some name →
      findLastSessionEnd (readFile st.dir name) = some r →
      (log m now st).logger.lastExchangeTokens = r.total_tokens.getD zeroTokens)
    ∧ (∀ (st : St) (nowc : String), st.logger.filePath ≠ "" →
      readFile (close nowc st).dir st.logger.filePath
        = readFile st.dir st.logger.filePath
          ++ [Line.ok (sessionEndRecord st.logger nowc)]) := by
  refine ⟨?_, ?_, ?_, ?_, ?_⟩
  · intro st0 pre post m now nowc hm hpost
    rw [runEvents_append, runEvents_cons]
    have hni : isInitEvent (Event.log m now) = false := by
      simp [isInitEvent, hm]
    have h6 := (step_shape_nonInit (runEvents pre st0) (Event.log m now)
      hni).2.2.2.2.2 m now rfl hm
    exact congrArg some
      ((runEvents_lastTokens post _ hpost).trans h6)
  · intro st0 evs nowc hevs
    exact congrArg some (runEvents_lastTokens evs st0 hevs)
  · intro dir
    rfl
  · intro m now st name r h1 h2 hfind hse
    rw [log_eq_init m now st h1 h2,
      (handleSystemMessage_found_fields m now st name hfind).2.2.2.2.2.2,
      removeLastSessionEnd_logger]
    exact (loadPreviousSessionStats_some _ _ r hse).2.2.2
  · intro st nowc hfp
    rw [close_eq nowc st hfp, appendLine_dir _ _ hfp, readFile_dirAppend_self]

/-- C2 witness: after init, begin-exchange, and one completion, the
`session_end` snapshot equals the completion's usage. -/
theorem c2_witness :
    sampleResultMsg.type = "result"
    ∧ (∀ e ∈ ([] : List Event), isInitEvent e = false ∧ isResultEvent e = false)
    ∧ (sessionEndRecord (runEvents
        ([Event.log sampleInitMsg "t0", Event.logUserInput "hello" "t1"]
          ++ Event.log sampleResultMsg "t2" :: []) (initialSt [])).logger
        "tc").total_tokens = some (resultTokenSnapshot sampleResultMsg) :=
  ⟨rfl, by simp,
    c2_token_snapshot.1 (initialSt [])
      [Event.log sampleInitMsg "t0", Event.logUserInput "hello" "t1"] []
      sampleResultMsg "t2" "tc" rfl (by simp)⟩

/-- C3: the summed fields of the `session_end` record (`total_duration_ms`,
`total_duration_api_ms`, `total_cost_usd`) equal the starting totals plus the
arithmetic sum of the corresponding per-exchange stats over all completed
exchanges of the run, and an init-class event that resumes a file seeds the
totals from its last `session_end` record, so the sums persist across
resumption. -/
theorem c3_summed_totals :
    (∀ (st0 : St) (evs : List Event) (nowc : String),
      (∀ e ∈ evs, isInitEvent e = false) →
      (sessionEndRecord (runEvents evs st0).logger nowc).total_duration_ms
          = some (st0.logger.totalDurationMs + sumResultDurationMs evs)
      ∧ (sessionEndRecord (runEvents evs st0).logger nowc).total_duration_api_ms
          = some (st0.logger.totalDurationApiMs + sumResultDurationApiMs evs)
      ∧ (sessionEndRecord (runEvents evs st0).logger nowc).total_cost_usd
          = some (st0.logger.totalCostUsd + sumResultCostUsd evs))
    ∧ (∀ (m : SDKMessage) (now : String) (st : St) (name : String) (r : Record),
      m.type = "system" → m.subtype = some "init" →
      findExistingSessionFile st.dir (orElseStr m.session_id "") = some name →
      findLastSessionEnd (readFile st.dir name) = some r →
      (log m now st).logger.totalDurationMs = r.total_duration_ms.getD 0
      ∧ (log m now st).logger.totalDurationApiMs = r.total_duration_api_ms.getD 0
      ∧ (log m now st).logger.totalCostUsd = r.total_cost_usd.getD 0) := by
  constructor
  · intro st0 evs nowc hevs
    have ht := runEvents_totals evs st0 hevs
    exact ⟨congrArg some ht.2.1, congrArg some ht.2.2.1, congrArg some ht.2.2.2⟩
  · intro m now st name r h1 h2 hfind hse
    have hload := loadPreviousSessionStats_some
      ({ initializedLogger m st.logger with
          filePath := name
          exchangeCount := getLastExchangeNumber (readFile st.dir name) })
      (readFile st.dir name) r hse
    refine ⟨?_, ?_, ?_⟩ <;>
      rw [log_eq_init m now st h1 h2,
        (handleSystemMessage_found_fields m now st name hfind).2.2.2.2.2.2,
        removeLastSessionEnd_logger]
    · exact hload.1
    · exact hload.2.1
    · exact hload.2.2.1

/-- C3 witness: one completed exchange starting from a fresh logger sums its
stats on top of the zero totals. -/
theorem c3_witness :
    (∀ e ∈ [Event.log sampleResultMsg "t1"], isInitEvent e = false)
    ∧ ((sessionEndRecord (runEvents [Event.log sampleResultMsg "t1"]
          (initialSt [])).logger "tc").total_duration_ms
        = some ((initialSt []).logger.totalDurationMs
            + sumResultDurationMs [Event.log sampleResultMsg "t1"])
      ∧ (sessionEndRecord (runEvents [Event.log sampleResultMsg "t1"]
          (initialSt [])).logger "tc").total_duration_api_ms
        = some ((initialSt []).logger.totalDurationApiMs
            + sumResultDurationApiMs [Event.log sampleResultMsg "t1"])
      ∧ (sessionEndRecord (runEvents [Event.log sampleResultMsg "t1"]
          (initialSt [])).logger "tc").total_cost_usd
        = some ((initialSt []).logger.totalCostUsd
            + sumResultCostUsd [Event.log sampleResultMsg "t1"])) :=
  ⟨by decide,
    c3_summed_totals.1 (initialSt []) [Event.log sampleResultMsg "t1"] "tc" (by decide)⟩


/-- C7: for every event sequence beginning with an init-class event (from a
fresh logger over an empty sessions directory), the number of `exchange`
records present across the directory equals the number of completion-class
(`result`) events observed. -/
theorem c7_exchange_records_match_results (m : SDKMessage) (now : String)
    (evs : List Event) (h1 : m.type = "system") (h2 : m.subtype = some "init") :
    countExchangeDir (runEvents (Event.log m now :: evs) (initialSt [])).dir
      = countResultEvents (Event.log m now :: evs) := by
  have hfind : findExistingSessionFile ([] : Dir) (orElseStr m.session_id "")
      = none := rfl
  have hd : step (initialSt []) (Event.log m now)
      = handleSystemMessage m now (initialSt []) := log_eq_init m now _ h1 h2
  have hflds := handleSystemMessage_new_fields m now (initialSt []) hfind
  have hnn := newSessionFilename_ne_empty m now
  have hg0 : GoodDir (initialSt []).dir := ⟨List.nodup_nil, by simp [initialSt]⟩
  have hg1 : GoodDir (step (initialSt []) (Event.log m now)).dir := by
    rw [hd, hflds.2]; exact goodDir_dirAppend _ _ _ hg0 hnn
  have hfp1 : (step (initialSt []) (Event.log m now)).logger.filePath ≠ "" := by
    rw [hd, hflds.1]; exact hnn
  have hc1 : countExchangeDir (step (initialSt []) (Event.log m now)).dir = 0 := by
    rw [hd, hflds.2]
    simp only [countExchangeDir]
    rw [countDirOfType_dirAppend _ _ _ _ hg0.1]
    simp [isTypeLine, sessionStartRecord, countDirOfType, initialSt]
  have hrun := runEvents_good_count evs _ hg1 hfp1
  rw [runEvents_cons, hrun.2.2, hc1]
  have hni : isResultEvent (Event.log m now) = false := by
    simp [isResultEvent, h1]
  simp [countResultEvents, List.countP_cons, hni]

/-- C7 witness: init, begin-exchange, one assistant event, one completion
event — one exchange record, one result event. -/
theorem c7_witness :
    sampleInitMsg.type = "system"
    ∧ sampleInitMsg.subtype = some "init"
    ∧ countExchangeDir (runEvents (Event.log sampleInitMsg "t0" ::
        [Event.logUserInput "hi" "t1", Event.log sampleTextMsg "t2",
          Event.log sampleResultMsg "t3"]) (initialSt [])).dir
      = countResultEvents (Event.log sampleInitMsg "t0" ::
        [Event.logUserInput "hi" "t1", Event.log sampleTextMsg "t2",
          Event.log sampleResultMsg "t3"]) :=
  ⟨rfl, rfl,
    c7_exchange_records_match_results sampleInitMsg "t0"
      [Event.logUserInput "hi" "t1", Event.log sampleTextMsg "t2",
        Event.log sampleResultMsg "t3"] rfl rfl⟩

/-- C8: a completion-class event on an initialized logger always appends one
exchange record built from the current state — carrying the current exchange
counter, buffered user input, start timestamp, and message buffer — and
immediately after initialization of a fresh logger those are 0, the empty
string, the empty string, and the empty list; nothing is dropped and no
error is possible (the handler is total). -/
theorem c8_result_without_begin :
    (∀ (st : St) (m : SDKMessage) (now : String),
      m.type = "result" → st.logger.filePath ≠ "" →
      readFile (log m now st).dir st.logger.filePath
        = readFile st.dir st.logger.filePath
          ++ [Line.ok (exchangeRecord st.logger (extractStats m) now)]
      ∧ (exchangeRecord st.logger (extractStats m) now).exchange
          = some st.logger.exchangeCount
      ∧ (exchangeRecord st.logger (extractStats m) now).user_input
          = some st.logger.currentUserInput
      ∧ (exchangeRecord st.logger (extractStats m) now).ts_start
          = some st.logger.exchangeStartTs
      ∧ (exchangeRecord st.logger (extractStats m) now).messages
          = some st.logger.currentMessages)
    ∧ (∀ (minit : SDKMessage) (now1 : String),
      minit.type = "system" → minit.subtype = some "init" →
      (log minit now1 (initialSt [])).logger.exchangeCount = 0
      ∧ (log minit now1 (initialSt [])).logger.currentUserInput = ""
      ∧ (log minit now1 (initialSt [])).logger.exchangeStartTs = ""
      ∧ (log minit now1 (initialSt [])).logger.currentMessages = []
      ∧ (log minit now1 (initialSt [])).logger.filePath ≠ "") := by
  constructor
  · intro st m now hm hfp
    refine ⟨?_, rfl, rfl, rfl, rfl⟩
    rw [log_eq_result m now st hm, handleResultMessage_dir,
      appendLine_dir _ _ hfp, readFile_dirAppend_self]
  · intro minit now1 h1 h2
    have hfind : findExistingSessionFile ([] : Dir) (orElseStr minit.session_id "")
        = none := rfl
    have hd := log_eq_init minit now1 (initialSt []) h1 h2
    have hflds := handleSystemMessage_new_fields minit now1 (initialSt []) hfind
    refine ⟨?_, ?_, ?_, ?_, ?_⟩ <;> rw [hd, hflds.1]
    · simp [initializedLogger, initialSt]
    · simp [initializedLogger, initialSt]
    · simp [initializedLogger, initialSt]
    · simp [initializedLogger, initialSt]
    · exact newSessionFilename_ne_empty minit now1

/-- C8 witness: a completion right after a fresh init appends an exchange
record with ordinal 0, empty user input, empty start timestamp, and an empty
message list. -/
theorem c8_witness :
    sampleResultMsg.type = "result"
    ∧ (log sampleInitMsg "t0" (initialSt [])).logger.filePath ≠ ""
    ∧ (readFile (log sampleResultMsg "t1"
          (log sampleInitMsg "t0" (initialSt []))).dir
          (log sampleInitMsg "t0" (initialSt [])).logger.filePath
        = readFile (log sampleInitMsg "t0" (initialSt [])).dir
            (log sampleInitMsg "t0" (initialSt [])).logger.filePath
          ++ [Line.ok (exchangeRecord
              (log sampleInitMsg "t0" (initialSt [])).logger
              (extractStats sampleResultMsg) "t1")]
      ∧ (exchangeRecord (log sampleInitMsg "t0" (initialSt [])).logger
          (extractStats sampleResultMsg) "t1").exchange
          = some (log sampleInitMsg "t0" (initialSt [])).logger.exchangeCount
      ∧ (exchangeRecord (log sampleInitMsg "t0" (initialSt [])).logger
          (extractStats sampleResultMsg) "t1").user_input
          = some (log sampleInitMsg "t0" (initialSt [])).logger.currentUserInput
      ∧ (exchangeRecord (log sampleInitMsg "t0" (initialSt [])).logger
          (extractStats sampleResultMsg) "t1").ts_start
          = some (log sampleInitMsg "t0" (initialSt [])).logger.exchangeStartTs
      ∧ (exchangeRecord (log sampleInitMsg "t0" (initialSt [])).logger
          (extractStats sampleResultMsg) "t1").messages
          = some (log sampleInitMsg "t0" (initialSt [])).logger.currentMessages)
    ∧ ((log sampleInitMsg "t0" (initialSt [])).logger.exchangeCount = 0
      ∧ (log sampleInitMsg "t0" (initialSt [])).logger.currentUserInput = ""
      ∧ (log sampleInitMsg "t0" (initialSt [])).logger.exchangeStartTs = ""
      ∧ (log sampleInitMsg "t0" (initialSt [])).logger.currentMessages = []
      ∧ (log sampleInitMsg "t0" (initialSt [])).logger.filePath ≠ "") :=
  ⟨rfl, by decide,
    c8_result_without_begin.1 (log sampleInitMsg "t0" (initialSt []))
      sampleResultMsg "t1" rfl (by decide),
    c8_result_without_begin.2 sampleInitMsg "t0" rfl rfl⟩

/-- C10: while accumulating, an assistant `text` block with a missing or
empty text, a `tool_use` block with a missing or empty id or name, and a
`tool_result` block with a missing or empty tool_use_id are silently
skipped: the sub-event buffer and the tool-usage counts are unchanged, and a
whole assistant message consisting of such a block leaves the state
untouched. -/
theorem c10_invalid_blocks_skipped :
    (∀ (ts : String) (acc : List Msg × List (String × Nat)) (b : ContentBlock),
      b.type = "text" → truthyStr b.text = false →
      assistantBlockStep ts acc b = acc)
    ∧ (∀ (ts : String) (acc : List Msg × List (String × Nat)) (b : ContentBlock),
      b.type = "tool_use" → (truthyStr b.id = false ∨ truthyStr b.name = false) →
      assistantBlockStep ts acc b = acc)
    ∧ (∀ (ts : String) (acc : List Msg) (b : ContentBlock),
      b.type = "tool_result" → truthyStr b.tool_use_id = false →
      userBlockStep ts acc b = acc)
    ∧ (∀ (m : SDKMessage) (now : String) (st : St) (b : ContentBlock),
      m.type = "assistant" → m.message = some { content := some [b] } →
      ((b.type = "text" ∧ truthyStr b.text = false)
        ∨ (b.type = "tool_use" ∧ (truthyStr b.id = false ∨ truthyStr b.name = false))) →
      log m now st = st) := by
  have h1 : ∀ (ts : String) (acc : List Msg × List (String × Nat)) (b : ContentBlock),
      b.type = "text" → truthyStr b.text = false →
      assistantBlockStep ts acc b = acc := by
    intro ts acc b ht htx
    simp [assistantBlockStep, ht, htx]
  have h2 : ∀ (ts : String) (acc : List Msg × List (String × Nat)) (b : ContentBlock),
      b.type = "tool_use" → (truthyStr b.id = false ∨ truthyStr b.name = false) →
      assistantBlockStep ts acc b = acc := by
    intro ts acc b ht hid
    rcases hid with hid | hid <;> simp [assistantBlockStep, ht, hid]
  have h3 : ∀ (ts : String) (acc : List Msg) (b : ContentBlock),
      b.type = "tool_result" → truthyStr b.tool_use_id = false →
      userBlockStep ts acc b = acc := by
    intro ts acc b ht htu
    simp [userBlockStep, ht, htu]
  refine ⟨h1, h2, h3, ?_⟩
  intro m now st b hassist hmsg hbad
  rw [log_eq_assistant m now st hassist]
  have hc : m.message.bind (fun body => body.content) = some [b] := by
    rw [hmsg]
    rfl
  have hstep : assistantBlockStep now
      (st.logger.currentMessages, st.logger.toolsUsed) b
      = (st.logger.currentMessages, st.logger.toolsUsed) := by
    rcases hbad with ⟨ht, htx⟩ | ⟨ht, hid⟩
    · exact h1 now _ b ht htx
    · exact h2 now _ b ht hid
  simp [handleAssistantMessage, hc, hstep]

/-- C10 witness: a text block without text, a tool_use block without a
name, a tool_result block without a tool_use_id, and a whole assistant
message holding only the empty text block are all skipped. -/
theorem c10_witness :
    (({ type := "text" } : ContentBlock).type = "text"
      ∧ truthyStr ({ type := "text" } : ContentBlock).text = false
      ∧ assistantBlockStep "t" ([], []) { type := "text" } = ([], []))
    ∧ assistantBlockStep "t" ([], []) { type := "tool_use", id := some "i1" } = ([], [])
    ∧ userBlockStep "t" [] { type := "tool_result" } = []
    ∧ log ({ type := "assistant",
             message := some { content := some [{ type := "text" }] } })
        "t" (initialSt []) = initialSt [] :=
  ⟨⟨rfl, rfl, c10_invalid_blocks_skipped.1 "t" ([], []) { type := "text" } rfl rfl⟩,
    c10_invalid_blocks_skipped.2.1 "t" ([], [])
      { type := "tool_use", id := some "i1" } rfl (Or.inr rfl),
    c10_invalid_blocks_skipped.2.2.1 "t" [] { type := "tool_result" } rfl rfl,
    c10_invalid_blocks_skipped.2.2.2
      { type := "assistant", message := some { content := some [{ type := "text" }] } }
      "t" (initialSt []) { type := "text" } rfl rfl (Or.inl ⟨rfl, rfl⟩)⟩


end SessionLogger
